import Mathlib

/-!
Verification development for the DIgiDallaProMax repository.

The Python sources are shallowly embedded: strings are `List Char`, JSON
dictionaries become Lean structures (one field per key the code accesses),
remote HTTP calls and randomness become oracle parameters, and fallible
code returns `Option`/`Except`.  Each embedded definition is named after
the Python function it translates and carries a doc comment pointing at
the source location.
-/

/-- Python strings are modelled as lists of characters. -/
abbrev Str := List Char

/-- Coerces a Lean string literal into the `Str` model. -/
def cs (x : String) : Str := x.data

/-- The opening brace character, written out so that brace characters never
appear inside string literals of this file. -/
def lb : Char := Char.ofNat 123

/-- The closing brace character. -/
def rb : Char := Char.ofNat 125

/-- A string is brace-free when it contains neither an opening nor a closing
brace.  All built-in default values of `generate_from_template` except the
character name and personality are brace-free by construction. -/
def braceFree (xs : Str) : Prop := lb ∉ xs ∧ rb ∉ xs

instance (xs : Str) : Decidable (braceFree xs) := by
  unfold braceFree; infer_instance

/-- Auxiliary scanner for `replaceAll`: while `skip` is positive the scanner
is inside an already-replaced occurrence and just discards characters. -/
def replaceAllAux (pat val : Str) : Nat → Str → Str
  | _, [] => []
  | skip + 1, _ :: rest => replaceAllAux pat val skip rest
  | 0, c :: rest =>
    if pat ≠ [] ∧ (c :: rest).take pat.length = pat then
      val ++ replaceAllAux pat val (pat.length - 1) rest
    else
      c :: replaceAllAux pat val 0 rest

/-- Python `str.replace(pat, val)`: scans left to right, replacing
non-overlapping occurrences of `pat` by `val`.  Every call site in the
embedded code passes a non-empty `pat`; for `pat = []` this model returns
the input unchanged (Python would interleave `val`, a case never reached). -/
def replaceAll (pat val xs : Str) : Str := replaceAllAux pat val 0 xs

/-- Auxiliary scanner for `extract_variables`, again with a skip counter for
the characters consumed by a completed match. -/
def extractVarsAux : Nat → Str → List Str
  | _, [] => []
  | skip + 1, _ :: rest => extractVarsAux skip rest
  | 0, c :: rest =>
    if c = lb then
      let run := rest.takeWhile (fun d => d ≠ rb)
      if run ≠ [] ∧ rest.drop run.length ≠ [] then
        run :: extractVarsAux (run.length + 1) rest
      else
        extractVarsAux 0 rest
    else
      extractVarsAux 0 rest

/-- Python `re.findall` over the pattern `\x7b([^\x7d]+)\x7d` from
`extract_variables` in `src/app.py` (lines 805-807): leftmost,
non-overlapping matches; each match is an opening brace, a maximal
non-empty run of non-closing-brace characters, and a closing brace. -/
def extract_variables (xs : Str) : List Str := extractVarsAux 0 xs

/-- Python dictionary lookup over an association list (first matching key). -/
def lookupStr {α : Type} : List (Str × α) → Str → Option α
  | [], _ => none
  | (k, v) :: rest, key => if k = key then some v else lookupStr rest key

/-- Python `str.strip()` whitespace test (the six ASCII whitespace
characters stripped by `strip`). -/
def isPySpace (c : Char) : Bool :=
  c = ' ' ∨ c = '\t' ∨ c = '\n' ∨ c = '\r' ∨ c = '\x0b' ∨ c = '\x0c'

/-- Python `str.strip()`: drops leading and trailing whitespace. -/
def pyStrip (xs : Str) : Str :=
  ((xs.dropWhile isPySpace).reverse.dropWhile isPySpace).reverse

/-- The character data read by `generate_from_template`
(`character.get('name', '')` and `character.get('personality', '')`). -/
structure CharacterT where
  name : Str
  personality : Str

/-- A prompt template record as stored in `prompt-templates.json`.  Only the
fields accessed by the embedded code are modelled. -/
structure TemplateRec where
  id : Str
  name : Str
  category : Str
  template : Str

/-- The `default_values` table of `generate_from_template`
(`src/app.py` lines 813-828). -/
def default_values (character : CharacterT) : List (Str × List Str) :=
  [ (cs "character", [character.name]),
    (cs "personality", [character.personality]),
    (cs "style", [cs "cinematic", cs "artistic", cs "professional", cs "dramatic", cs "ethereal"]),
    (cs "lighting", [cs "golden hour", cs "soft natural light", cs "dramatic shadows", cs "warm ambient light"]),
    (cs "activity", [cs "reading", cs "walking", cs "thinking", cs "exploring", cs "creating"]),
    (cs "setting", [cs "urban landscape", cs "natural environment", cs "cozy interior", cs "modern studio"]),
    (cs "artistic_style", [cs "impressionist", cs "surreal", cs "minimalist", cs "abstract", cs "contemporary"]),
    (cs "composition", [cs "close-up", cs "medium shot", cs "wide angle", cs "dynamic angle"]),
    (cs "medium", [cs "oil painting", cs "watercolor", cs "digital art", cs "photography"]),
    (cs "magical_element", [cs "glowing aura", cs "floating objects", cs "mystical energy", cs "enchanted atmosphere"]),
    (cs "fantasy_setting", [cs "enchanted forest", cs "crystal cave", cs "floating island", cs "magical library"]),
    (cs "photo_style", [cs "portrait", cs "environmental", cs "fashion", cs "documentary"]),
    (cs "camera_angle", [cs "eye level", cs "low angle", cs "high angle", cs "dutch angle"]),
    (cs "lighting_type", [cs "natural light", cs "studio lighting", cs "golden hour", cs "blue hour"]) ]

/-- The substitution performed for one variable in the loop body of
`generate_from_template` (`src/app.py` lines 831-838).  `pick` models
`random.choice`. -/
def substituteVar (character : CharacterT) (custom_variables : List (Str × Str))
    (pick : List Str → Str) (p : Str) (var : Str) : Str :=
  let placeholder := lb :: (var ++ [rb])
  match lookupStr custom_variables var with
  | some v => replaceAll placeholder v p
  | none =>
    match lookupStr (default_values character) var with
    | some l => replaceAll placeholder (pick l) p
    | none => replaceAll placeholder [] p

/-- Embedding of `generate_from_template` (`src/app.py` lines 809-840).
`pick` models `random.choice` over the chosen default list. -/
def generate_from_template (template : TemplateRec) (character : CharacterT)
    (custom_variables : List (Str × Str)) (pick : List Str → Str) : Str :=
  let prompt := template.template
  let vars := extract_variables prompt
  let folded := vars.foldl (substituteVar character custom_variables pick) prompt
  pyStrip (replaceAll (cs "  ") (cs " ") folded)

/-- A well-formed template decomposes into literal chunks and placeholders.
This type is only used to state the amended claim C1; the code itself works
on the rendered flat string. -/
inductive Tok where
  | lit (text : Str)
  | phv (var : Str)

/-- Flattens a token list back into the template string: a placeholder
token renders as an opening brace, the variable, and a closing brace. -/
def render : List Tok → Str
  | [] => []
  | Tok.lit t :: ts => t ++ render ts
  | Tok.phv v :: ts => lb :: (v ++ rb :: render ts)

/-- Well-formedness of a single token: literal text is brace-free, and a
placeholder variable is non-empty and brace-free. -/
def tokWF : Tok → Prop
  | Tok.lit t => braceFree t
  | Tok.phv v => braceFree v ∧ v ≠ []

instance : ∀ t : Tok, Decidable (tokWF t)
  | Tok.lit t => (inferInstance : Decidable (braceFree t))
  | Tok.phv v => (inferInstance : Decidable (braceFree v ∧ v ≠ []))

/-- Well-formedness of a token list. -/
def toksWF (toks : List Tok) : Prop := ∀ t ∈ toks, tokWF t

instance (toks : List Tok) : Decidable (toksWF toks) := by
  unfold toksWF; infer_instance

/-- The placeholder variables of a token list, in template order. -/
def phVars : List Tok → List Str
  | [] => []
  | Tok.lit _ :: ts => phVars ts
  | Tok.phv v :: ts => v :: phVars ts

/-- Replaces every placeholder for variable `v` by the literal `val`:
the token-level counterpart of one iteration of the substitution loop. -/
def substTok (v val : Str) (toks : List Tok) : List Tok :=
  toks.map (fun t => match t with
    | Tok.phv w => if w = v then Tok.lit val else Tok.phv w
    | t => t)

/-- The value substituted for a variable by one loop iteration of
`generate_from_template`: the custom value if present, otherwise a pick
from the defaults table, otherwise the empty string. -/
def valueFor (character : CharacterT) (custom_variables : List (Str × Str))
    (pick : List Str → Str) (var : Str) : Str :=
  match lookupStr custom_variables var with
  | some v => v
  | none =>
    match lookupStr (default_values character) var with
    | some l => pick l
    | none => []

/-- Token-level substitution step corresponding to `substituteVar`. -/
def substTokStep (character : CharacterT) (custom_variables : List (Str × Str))
    (pick : List Str → Str) (toks : List Tok) (var : Str) : List Tok :=
  substTok var (valueFor character custom_variables pick var) toks

/-! ### Image-generation polling loops (claims C2 and C3) -/

/-- One image entry of a ComfyUI history node output: the embedded model
assumes each image dictionary carries its `filename` and `type` keys. -/
structure Img where
  filename : Str
  itype : Str
deriving DecidableEq

/-- One node output of a ComfyUI history record; `images = none` models a
node output dictionary without an `images` key. -/
structure NodeOut where
  images : Option (List Img)
deriving DecidableEq

/-- The observable part of one poll of `GET /history/prompt_id`.
For the single-file server, `found` models `prompt_id in history`; for
`python_dalla` it models the conjunction `history is not None and
prompt_id in history and 'outputs' in history[prompt_id]`. -/
structure PollResp where
  found : Bool
  outputs : List (Str × NodeOut)
deriving DecidableEq

/-- The scan `for node_id in outputs: if 'images' in outputs[node_id]`
of `_run_image_generation_sync` (`src/app.py` lines 434-437): the first
node carrying an `images` key, in dictionary order. -/
def firstImagesNode : List (Str × NodeOut) → Option (List Img)
  | [] => none
  | (_, o) :: rest =>
    match o.images with
    | some imgs => some imgs
    | none => firstImagesNode rest

/-- One loop iteration of the polling loop of `_run_image_generation_sync`
(`src/app.py` lines 428-446).  `none` means the iteration falls through to
`time.sleep(2)`; `some (Except.ok url)` is the returned `/view` URL;
`some (Except.error e)` models an uncaught exception terminating the loop
(the explicit `raise` when a non-empty outputs record has no image, or the
`IndexError` when the first `images` list is empty). -/
def appPollStep (comfyUrl : Str) (r : PollResp) : Option (Except Str Str) :=
  if r.found ∧ r.outputs ≠ [] then
    match firstImagesNode r.outputs with
    | some (img :: _) =>
      some (Except.ok (comfyUrl ++ cs "/view?filename=" ++ img.filename))
    | some [] => some (Except.error (cs "IndexError: list index out of range"))
    | none => some (Except.error (cs "No image output found in completed workflow"))
  else
    none

/-- Fuel-bounded unfolding of the `while True` polling loop of
`_run_image_generation_sync`.  `oracle i` is the response to the i-th poll
(counting from `start`); the second component is the list of sleep
durations (in seconds) performed, in order: the literal constant `2` of
`time.sleep(2)` after every unsuccessful poll. -/
def appPollLoop (comfyUrl : Str) (oracle : Nat → PollResp) (start : Nat) :
    Nat → Option (Except Str Str) × List Nat
  | 0 => (none, [])
  | fuel + 1 =>
    match appPollStep comfyUrl (oracle start) with
    | some out => (some out, [])
    | none =>
      let r := appPollLoop comfyUrl oracle (start + 1) fuel
      (r.1, 2 :: r.2)

/-- The polling phase of `_run_image_generation_sync` started at poll 0. -/
def run_image_generation_poll (comfyUrl : Str) (oracle : Nat → PollResp) (fuel : Nat) :
    Option (Except Str Str) × List Nat :=
  appPollLoop comfyUrl oracle 0 fuel

/-- The scan of `generate_image` in `src/python_dalla/comfyui_client.py`
(lines 140-148): across all nodes with an `images` key, the first image
whose `type` equals `output`, returning its filename. -/
def findOutputImage : List (Str × NodeOut) → Option Str
  | [] => none
  | (_, o) :: rest =>
    match (o.images.getD []).find? (fun im => im.itype == cs "output") with
    | some im => some im.filename
    | none => findOutputImage rest

/-- One loop iteration of the polling loop of `generate_image`
(`src/python_dalla/comfyui_client.py` lines 138-149): `none` falls through
to `time.sleep(1)`; this loop has no raising path. -/
def dallaPollStep (r : PollResp) : Option Str :=
  if r.found then findOutputImage r.outputs else none

/-- Fuel-bounded unfolding of the `while True` polling loop of
`generate_image` in `python_dalla`, with its sleep durations (the literal
constant `1` of `time.sleep(1)`). -/
def dallaPollLoop (oracle : Nat → PollResp) (start : Nat) :
    Nat → Option Str × List Nat
  | 0 => (none, [])
  | fuel + 1 =>
    match dallaPollStep (oracle start) with
    | some out => (some out, [])
    | none =>
      let r := dallaPollLoop oracle (start + 1) fuel
      (r.1, 1 :: r.2)

/-- The polling phase of `python_dalla.generate_image` started at poll 0. -/
def generate_image_poll (oracle : Nat → PollResp) (fuel : Nat) : Option Str × List Nat :=
  dallaPollLoop oracle 0 fuel

/-- A poll oracle whose first poll reports a non-empty outputs record whose
only node has no `images` key, while the second poll carries a finished
image.  Concretely realizable: ComfyUI histories can report outputs
node-by-node before the `SaveImage` node has run. -/
def oracleC3 : Nat → PollResp := fun i =>
  if i = 0 then ⟨true, [(cs "3", ⟨none⟩)]⟩
  else ⟨true, [(cs "9", ⟨some [⟨cs "out.png", cs "output"⟩]⟩)]⟩

/-! ### JSON values and the two persistence layers (claims C6 and C7) -/

/-- Parsed JSON values.  The file layer of the persistence helpers is
modelled at this granularity: `json.dump`/`json.load` round-tripping of a
value through its textual form is the json library's contract and is not
re-verified here. -/
inductive Json where
  | null
  | bool (b : Bool)
  | num (n : Int)
  | str (v : Str)
  | arr (elems : List Json)
  | obj (fields : List (Str × Json))

/-- The `promptSettings` pydantic model of
`src/python_implementation/src/models.py`. -/
structure PromptSettingsM where
  basePrompt : Str
  negativePrompt : Str
  style : Str
  mood : Str
deriving DecidableEq

/-- The `Narrative` pydantic model of `models.py`; the two datetime fields
are modelled by their ISO-serialized representations. -/
structure NarrativeM where
  id : Str
  title : Str
  description : Str
  startDate : Str
  endDate : Str
deriving DecidableEq

/-- The `Character` pydantic model of `models.py`.  Datetime fields are
modelled by their ISO-serialized representations (pydantic's datetime codec
round-trips them). -/
structure CharacterM where
  id : Str
  name : Str
  personality : Str
  backstory : Str
  instagramHandle : Option Str
  twitterHandle : Option Str
  isActive : Bool
  createdAt : Str
  updatedAt : Str
  preferredModel : Option Str
  triggerWord : Option Str
  promptSettings : PromptSettingsM
  narratives : List NarrativeM
  instagramAccountId : Option Str
  instagramApiKey : Option Str
  twitterAccountId : Option Str
  twitterAppKey : Option Str
  twitterAppSecret : Option Str
  twitterAccessToken : Option Str
  twitterAccessSecret : Option Str
deriving DecidableEq

/-- Serializes an optional string the way `model_dump(mode='json')` does:
`None` becomes JSON null. -/
def optStrJson : Option Str → Json
  | none => Json.null
  | some v => Json.str v

/-- `model_dump(mode='json')` for `PromptSettings`. -/
def psToJson (p : PromptSettingsM) : Json :=
  Json.obj [ (cs "basePrompt", Json.str p.basePrompt),
    (cs "negativePrompt", Json.str p.negativePrompt),
    (cs "style", Json.str p.style),
    (cs "mood", Json.str p.mood) ]

/-- `model_dump(mode='json')` for `Narrative`. -/
def narToJson (n : NarrativeM) : Json :=
  Json.obj [ (cs "id", Json.str n.id),
    (cs "title", Json.str n.title),
    (cs "description", Json.str n.description),
    (cs "startDate", Json.str n.startDate),
    (cs "endDate", Json.str n.endDate) ]

/-- `model_dump(mode='json')` for `Character`: one key per model field. -/
def charToJson (c : CharacterM) : Json :=
  Json.obj [ (cs "id", Json.str c.id),
    (cs "name", Json.str c.name),
    (cs "personality", Json.str c.personality),
    (cs "backstory", Json.str c.backstory),
    (cs "instagramHandle", optStrJson c.instagramHandle),
    (cs "twitterHandle", optStrJson c.twitterHandle),
    (cs "isActive", Json.bool c.isActive),
    (cs "createdAt", Json.str c.createdAt),
    (cs "updatedAt", Json.str c.updatedAt),
    (cs "preferredModel", optStrJson c.preferredModel),
    (cs "triggerWord", optStrJson c.triggerWord),
    (cs "promptSettings", psToJson c.promptSettings),
    (cs "narratives", Json.arr (c.narratives.map narToJson)),
    (cs "instagramAccountId", optStrJson c.instagramAccountId),
    (cs "instagramApiKey", optStrJson c.instagramApiKey),
    (cs "twitterAccountId", optStrJson c.twitterAccountId),
    (cs "twitterAppKey", optStrJson c.twitterAppKey),
    (cs "twitterAppSecret", optStrJson c.twitterAppSecret),
    (cs "twitterAccessToken", optStrJson c.twitterAccessToken),
    (cs "twitterAccessSecret", optStrJson c.twitterAccessSecret) ]

/-- Dictionary lookup inside a serialized JSON object. -/
def jLookup : List (Str × Json) → Str → Option Json
  | [], _ => none
  | (k, v) :: rest, key => if k = key then some v else jLookup rest key

/-- Validation of a required string field (pydantic `str`). -/
def asStr : Json → Option Str
  | Json.str v => some v
  | _ => none

/-- Validation of a required boolean field (pydantic `bool`). -/
def asBool : Json → Option Bool
  | Json.bool b => some b
  | _ => none

/-- Validation of an `Optional[str]` field: JSON null parses to `None`. -/
def asOptStr : Json → Option (Option Str)
  | Json.null => some none
  | Json.str v => some (some v)
  | _ => none

/-- Field access for an `Optional[str]` pydantic field: an absent key
defaults to `None`, a present key must parse. -/
def getOptStr (fields : List (Str × Json)) (k : Str) : Option (Option Str) :=
  match jLookup fields k with
  | none => some none
  | some v => asOptStr v

/-- Validation performed by constructing `PromptSettings(**d)`. -/
def psFromJson : Json → Option PromptSettingsM
  | Json.obj f =>
    match jLookup f (cs "basePrompt"), jLookup f (cs "negativePrompt"),
        jLookup f (cs "style"), jLookup f (cs "mood") with
    | some b, some n, some st, some m =>
      match asStr b, asStr n, asStr st, asStr m with
      | some b, some n, some st, some m => some ⟨b, n, st, m⟩
      | _, _, _, _ => none
    | _, _, _, _ => none
  | _ => none

/-- Validation performed by constructing `Narrative(**d)`. -/
def narFromJson : Json → Option NarrativeM
  | Json.obj f =>
    match jLookup f (cs "id"), jLookup f (cs "title"), jLookup f (cs "description"),
        jLookup f (cs "startDate"), jLookup f (cs "endDate") with
    | some i, some t, some d, some sd, some ed =>
      match asStr i, asStr t, asStr d, asStr sd, asStr ed with
      | some i, some t, some d, some sd, some ed => some ⟨i, t, d, sd, ed⟩
      | _, _, _, _, _ => none
    | _, _, _, _, _ => none
  | _ => none

/-- Sequential decoding of a JSON list, failing on the first invalid
element, as the list comprehension `[Character(**char) for char in data]`
does when a constructor raises. -/
def decodeList {α : Type} (f : Json → Option α) : List Json → Option (List α)
  | [] => some []
  | x :: rest =>
    match f x with
    | none => none
    | some a =>
      match decodeList f rest with
      | none => none
      | some l => some (a :: l)

/-- Validation performed by constructing `Character(**char)`
(`src/python_implementation/src/database.py` line 20).  Fields that pydantic
defaults (`id`, `isActive`, the timestamps) are modelled as required, which
is exact on every dictionary produced by `save_characters`. -/
def charFromJson : Json → Option CharacterM
  | Json.obj f =>
    match jLookup f (cs "id"), jLookup f (cs "name"), jLookup f (cs "personality"),
        jLookup f (cs "backstory"), jLookup f (cs "isActive"),
        jLookup f (cs "createdAt"), jLookup f (cs "updatedAt"),
        jLookup f (cs "promptSettings"), jLookup f (cs "narratives") with
    | some ji, some jn, some jp, some jb, some ja, some jc, some ju, some jps, some jnar =>
      match asStr ji, asStr jn, asStr jp, asStr jb, asBool ja, asStr jc, asStr ju,
          psFromJson jps with
      | some i, some n, some p, some b, some act, some ca, some ua, some ps =>
        match jnar with
        | Json.arr l =>
          match decodeList narFromJson l with
          | some nars =>
            match getOptStr f (cs "instagramHandle"), getOptStr f (cs "twitterHandle"),
                getOptStr f (cs "preferredModel"), getOptStr f (cs "triggerWord"),
                getOptStr f (cs "instagramAccountId"), getOptStr f (cs "instagramApiKey"),
                getOptStr f (cs "twitterAccountId"), getOptStr f (cs "twitterAppKey"),
                getOptStr f (cs "twitterAppSecret"), getOptStr f (cs "twitterAccessToken"),
                getOptStr f (cs "twitterAccessSecret") with
            | some ih, some th, some pm, some tw, some iai, some iak, some tai,
                some tak, some tas, some tat, some tase =>
              some ⟨i, n, p, b, ih, th, act, ca, ua, pm, tw, ps, nars,
                iai, iak, tai, tak, tas, tat, tase⟩
            | _, _, _, _, _, _, _, _, _, _, _ => none
          | none => none
        | _ => none
      | _, _, _, _, _, _, _, _ => none
    | _, _, _, _, _, _, _, _, _ => none
  | _ => none

/-- Embedding of the single-file server's `save_characters`
(`src/app.py` lines 23-25): the file is opened with mode `w`, so the
previous file contents are discarded and the serialized list becomes the
entire new file. -/
def save_characters_app (characters : List Json) (_prevFile : Option Json) : Option Json :=
  some (Json.arr characters)

/-- Embedding of the single-file server's `load_characters`
(`src/app.py` lines 17-21): a missing file loads as the empty list,
otherwise the parsed file contents are returned as they are. -/
def load_characters_app (file : Option Json) : Json :=
  match file with
  | none => Json.arr []
  | some v => v

/-- Embedding of `database.save_characters`
(`src/python_implementation/src/database.py` lines 23-27): the whole file
is replaced by the dump of the full list of serialized characters. -/
def save_characters_impl (characters : List CharacterM) (_prevFile : Option Json) : Option Json :=
  some (Json.arr (characters.map charToJson))

/-- Embedding of `database.load_characters` (`database.py` lines 12-21):
a missing file loads as the empty list; otherwise every element of the
stored array is validated through the `Character` constructor (`none`
models an uncaught `ValidationError`, and a non-array file fails the list
comprehension). -/
def load_characters_impl (file : Option Json) : Option (List CharacterM) :=
  match file with
  | none => some []
  | some (Json.arr l) => decodeList charFromJson l
  | some _ => none

/-! ### Character records and CRUD handlers of the single-file server -/

/-- A character record as stored by the single-file server in
`characters.json` (the dictionary built by `create_character`,
`src/app.py` lines 856-869). -/
structure CharRec where
  id : Str
  name : Str
  personality : Str
  backstory : Str
  instagramHandle : Str
  isActive : Bool
  createdAt : Str
  updatedAt : Str
  preferredModel : Str
  triggerWord : Str
  promptSettings : Json
  narratives : Json

/-- The request payload of `create_character`: `Option` fields model keys
that may be absent from the posted JSON.  The `isActive` key is modelled
even though the handler never reads it, to state that the created record
ignores it. -/
structure CharPayload where
  name : Option Str
  personality : Option Str
  backstory : Option Str
  instagramHandle : Option Str
  preferredModel : Option Str
  triggerWord : Option Str
  promptSettings : Option Json
  narratives : Option Json
  isActive : Option Bool

/-- Embedding of `create_character` (`src/app.py` lines 848-874).
`newId` and `nowIso` stand for the generated id and the timestamp.
The result carries the created record and the saved list; an error is the
400 response. -/
def create_character (characters : List CharRec) (data : Option CharPayload)
    (newId nowIso : Str) : Except Str (CharRec × List CharRec) :=
  match data with
  | none => Except.error (cs "Name and personality are required")
  | some d =>
    match d.name, d.personality with
    | some nm, some pers =>
      let c : CharRec :=
        { id := newId
          name := nm
          personality := pers
          backstory := d.backstory.getD []
          instagramHandle := d.instagramHandle.getD []
          isActive := true
          createdAt := nowIso
          updatedAt := nowIso
          preferredModel := d.preferredModel.getD []
          triggerWord := d.triggerWord.getD []
          promptSettings := d.promptSettings.getD (Json.obj [])
          narratives := d.narratives.getD (Json.arr []) }
      Except.ok (c, characters ++ [c])
    | _, _ => Except.error (cs "Name and personality are required")

/-- Embedding of the single-file server's `delete_character`
(`src/app.py` lines 900-912).  The first component is the HTTP response
(404 error or success with the kept list); the second component records the
`save_characters` call, `none` when no save is performed. -/
def delete_character_app (characters : List CharRec) (charId : Str) :
    Except Str (List CharRec) × Option (List CharRec) :=
  let kept := characters.filter (fun c => ¬(c.id = charId))
  if kept.length = characters.length then
    (Except.error (cs "Character not found"), none)
  else
    (Except.ok kept, some kept)

/-- Embedding of the multi-module server's `delete_character`
(`src/python_implementation/src/main.py` lines 127-141), identical control
flow over pydantic `Character` records. -/
def delete_character_impl (characters : List CharacterM) (characterId : Str) :
    Except Str (List CharacterM) × Option (List CharacterM) :=
  let kept := characters.filter (fun c => ¬(c.id = characterId))
  if kept.length = characters.length then
    (Except.error (cs "Character not found"), none)
  else
    (Except.ok kept, some kept)

/-! ### Scheduler tasks of the single-file server (claims C4, C5, C8) -/

/-- A task record of `schedule.json`.  `ttype` models the `type` key read
through `task.get('type')` and `active` the `active` key read through
`task.get('active', True)`; both may be absent. -/
structure TaskRec where
  id : Str
  characterId : Str
  ttype : Option Str
  schedule : Str
  active : Option Bool
  createdAt : Str

/-- Events observable during one run of `execute_scheduled_task`
(`src/app.py` lines 40-96), in execution order. -/
inductive PipeEv where
  | prompt (text : Str)
  | image (result : Except Str Str)
  | caption (used : Str)
  | insta (caption : Str) (result : Except Str Str)
  | twitter (caption : Str) (result : Except Str Str)

/-- Embedding of `execute_scheduled_task` (`src/app.py` lines 40-96) as the
list of pipeline events it performs.  The outcomes of the four external
calls (image generation, caption generation, Instagram post, Twitter post)
are oracle parameters.  An image-generation error aborts the outer `try`;
a caption error is caught and replaced by `Default caption.`; both posts
are attempted independently for a `generate_and_post` task. -/
def execute_scheduled_task (tasks : List TaskRec) (characters : List CharRec)
    (taskId : Str) (imageRes : Except Str Str) (captionRes : Except Str Str)
    (instaRes : Except Str Str) (twitterRes : Except Str Str) : List PipeEv :=
  match tasks.find? (fun t => t.id == taskId) with
  | none => []
  | some task =>
    match characters.find? (fun c => c.id == task.characterId) with
    | none => []
    | some character =>
      let promptText :=
        cs "A dramatic portrait of " ++ character.name ++ cs ", " ++ character.personality
      PipeEv.prompt promptText ::
        match imageRes with
        | Except.error e => [PipeEv.image (Except.error e)]
        | Except.ok url =>
          let captionText :=
            match captionRes with
            | Except.ok c => c
            | Except.error _ => cs "Default caption."
          PipeEv.image (Except.ok url) :: PipeEv.caption captionText ::
            (if task.ttype == some (cs "generate_and_post") then
              [PipeEv.insta captionText instaRes, PipeEv.twitter captionText twitterRes]
            else
              [])

/-- Embedding of `initialize_scheduler` (`src/app.py` lines 110-121) as the
sequence of `scheduler.add_job` calls it issues: one `(job id, cron
expression)` registration per task whose `active` key is true or absent. -/
def init_scheduler (tasks : List TaskRec) : List (Str × Str) :=
  tasks.foldl
    (fun jobs task =>
      if task.active.getD true then jobs ++ [(task.id, task.schedule)] else jobs)
    []

/-- The `ScheduledTask` pydantic model of the multi-module server
(`models.py`): `active` is a required boolean there. -/
structure ScheduledTaskM where
  id : Str
  characterId : Str
  ttype : Str
  schedule : Str
  active : Bool

/-- Embedding of `add_task_to_scheduler`
(`src/python_implementation/src/scheduler_service.py` lines 65-77) as the
`add_job` calls it issues. -/
def add_task_to_scheduler (task : ScheduledTaskM) : List (Str × Str) :=
  if task.active then [(task.id, task.schedule)] else []

/-- Embedding of `scheduler_service.start` (lines 89-96): registrations
issued for all stored tasks. -/
def scheduler_service_start (tasks : List ScheduledTaskM) : List (Str × Str) :=
  tasks.foldl (fun jobs task => jobs ++ add_task_to_scheduler task) []

/-- Embedding of `delete_task` (`src/app.py` lines 163-177): response plus
the `save_schedule` call when one happens.  The scheduler-job removal is
not modelled (it does not touch the stored file). -/
def delete_task (tasks : List TaskRec) (taskId : Str) :
    Except Str Unit × Option (List TaskRec) :=
  let kept := tasks.filter (fun t => ¬(t.id = taskId))
  if kept.length = tasks.length then
    (Except.error (cs "Task not found"), none)
  else
    (Except.ok (), some kept)

/-- Updates the first matching element of a list, as the `for ... break`
loop of `update_task` does. -/
def updateFirst {α : Type} (p : α → Bool) (f : α → α) : List α → List α
  | [] => []
  | x :: rest => if p x then f x :: rest else x :: updateFirst p f rest

/-- Embedding of `update_task` (`src/app.py` lines 179-204).  The merge of
the request dictionary into the task plus the `updatedAt` stamp is the
function `upd` applied to the first matching task; a missing body is the
400 response; a missing task is the 404 response issued before any save. -/
def update_task (tasks : List TaskRec) (taskId : Str) (data : Option (TaskRec → TaskRec)) :
    Except Str Unit × Option (List TaskRec) :=
  match data with
  | none => (Except.error (cs "Invalid data"), none)
  | some upd =>
    if tasks.any (fun t => t.id == taskId) then
      (Except.ok (), some (updateFirst (fun t => t.id == taskId) upd tasks))
    else
      (Except.error (cs "Task not found"), none)

/-! ### Generated prompts of the single-file server (claims C8 and C9) -/

/-- A generated prompt record as built by `_generate_single_prompt`
(`src/app.py` lines 779-790) and stored in `generated-prompts.json`. -/
structure PromptRec where
  id : Str
  characterId : Str
  characterName : Str
  prompt : Str
  caption : Str
  templateId : Option Str
  createdAt : Str
  used : Bool
  imageGenerated : Bool
  posted : Bool

/-- The payload read by `_generate_single_prompt`: only `characterId`,
`templateId` and `customVariables` are ever read; the three status flags
are modelled to state that the created record ignores them. -/
structure PromptPayload where
  characterId : Option Str
  templateId : Option Str
  customVariables : List (Str × Str)
  used : Option Bool
  imageGenerated : Option Bool
  posted : Option Bool

/-- Embedding of `_generate_prompt_with_ai` (`src/app.py` lines 798-803). -/
def generate_prompt_with_ai (character : CharRec) : Str × Str :=
  (cs "A dramatic, cinematic portrait of " ++ character.name ++
      cs ", who is known for being " ++ character.personality ++ cs ".",
    cs "This is a simulated AI-generated caption for " ++ character.name ++
      cs ". #ai #placeholder")

/-- Embedding of `_generate_single_prompt` (`src/app.py` lines 753-796).
Python truthiness of the id strings is modelled: an absent or empty
`characterId` is rejected and an absent or empty `templateId` selects the
AI fallback.  `newId` and `nowIso` stand for the generated id and
timestamp and `pick` for `random.choice`.  The result carries the new
prompt record and the saved prompt list. -/
def generate_single_prompt (characters : List CharRec) (templates : List TemplateRec)
    (prompts : List PromptRec) (data : PromptPayload) (newId nowIso : Str)
    (pick : List Str → Str) : Except Str (PromptRec × List PromptRec) :=
  let cid := data.characterId.getD []
  if cid = [] then
    Except.error (cs "Character ID is required")
  else
    match characters.find? (fun c => c.id == cid) with
    | none => Except.error (cs "Character not found")
    | some character =>
      let tid := data.templateId.getD []
      if tid = [] then
        let pair := generate_prompt_with_ai character
        let newPrompt : PromptRec :=
          { id := newId, characterId := cid, characterName := character.name
            prompt := pair.1, caption := pair.2, templateId := data.templateId
            createdAt := nowIso, used := false, imageGenerated := false, posted := false }
        Except.ok (newPrompt, prompts ++ [newPrompt])
      else
        match templates.find? (fun t => t.id == tid) with
        | none => Except.error (cs "Template not found")
        | some template =>
          let ptext := generate_from_template template
            ⟨character.name, character.personality⟩ data.customVariables pick
          let newPrompt : PromptRec :=
            { id := newId, characterId := cid, characterName := character.name
              prompt := ptext, caption := [], templateId := data.templateId
              createdAt := nowIso, used := false, imageGenerated := false, posted := false }
          Except.ok (newPrompt, prompts ++ [newPrompt])

/-- Embedding of the `delete_prompt` action of `handle_prompt_actions`
(`src/app.py` lines 698-711): response plus the `save_prompts` call when
one happens. -/
def delete_prompt_action (prompts : List PromptRec) (promptId : Str) :
    Except Str Unit × Option (List PromptRec) :=
  let kept := prompts.filter (fun p => ¬(p.id = promptId))
  if kept.length = prompts.length then
    (Except.error (cs "Prompt not found"), none)
  else
    (Except.ok (), some kept)

/-- Embedding of the `delete_template` action of `handle_prompt_actions`
(`src/app.py` lines 663-676): response plus the `save_templates` call when
one happens. -/
def delete_template_action (templates : List TemplateRec) (templateId : Str) :
    Except Str Unit × Option (List TemplateRec) :=
  let kept := templates.filter (fun t => ¬(t.id = templateId))
  if kept.length = templates.length then
    (Except.error (cs "Template not found"), none)
  else
    (Except.ok (), some kept)

/-! ### The python_dalla scheduler worker (claim C10) -/

/-- A job record of the `python_dalla` scheduler file.  `post_at` is read
through `job.get('post_at')` and may be absent; the other accessed keys are
modelled as present. -/
structure JobW where
  id : Str
  status : Str
  post_at : Option Str
  character_id : Str
  image_filename : Str
  caption : Str
  post_id : Option Str
  error_message : Option Str
deriving DecidableEq

/-- A character record as used by the worker (only its id is matched on;
the full record is passed opaquely to the posting client). -/
structure CharW where
  id : Str
deriving DecidableEq

/-- The result dictionary of `instagram_client.post_to_instagram`. -/
structure PostRes where
  success : Bool
  post_id : Option Str
  error : Option Str

/-- Embedding of `get_character` (`src/python_dalla/scheduler_worker.py`
lines 31-35). -/
def get_character (characterId : Str) (characters : List CharW) : Option CharW :=
  characters.find? (fun c => c.id == characterId)

/-- The treatment of one job inside one pass of `run_scheduler`
(`src/python_dalla/scheduler_worker.py` lines 49-85).  `parseIso` models
`datetime.fromisoformat` (absolute times as integers); an absent or
unparseable `post_at` raises `TypeError`/`ValueError`, which the worker
catches by marking the job failed (the Python error message also carries
the exception text, abstracted away here).  `postFn` models
`instagram_client.post_to_instagram`. -/
def stepJob (characters : List CharW) (now : Int) (parseIso : Str → Option Int)
    (postFn : CharW → Str → Str → PostRes) (job : JobW) : JobW :=
  if job.status = cs "scheduled" then
    match job.post_at with
    | none => { job with status := cs "failed", error_message := some (cs "Invalid job data") }
    | some ts =>
      match parseIso ts with
      | none => { job with status := cs "failed", error_message := some (cs "Invalid job data") }
      | some t =>
        if t ≤ now then
          match get_character job.character_id characters with
          | none =>
            { job with status := cs "failed", error_message := some (cs "Character not found.") }
          | some ch =>
            let result := postFn ch job.image_filename job.caption
            if result.success then
              { job with status := cs "completed", post_id := result.post_id }
            else
              { job with status := cs "failed", error_message := result.error }
        else
          job
  else
    job

/-- One pass of the `while True` loop of `run_scheduler` over the loaded
job list (the in-place `for job in jobs` mutation). -/
def run_scheduler_pass (characters : List CharW) (now : Int)
    (parseIso : Str → Option Int) (postFn : CharW → Str → Str → PostRes)
    (jobs : List JobW) : List JobW :=
  jobs.map (stepJob characters now parseIso postFn)

/-- A scheduled job is due or carries invalid data: the condition under
which one pass must move it out of the `scheduled` state. -/
def dueOrInvalid (now : Int) (parseIso : Str → Option Int) (job : JobW) : Bool :=
  match job.post_at with
  | none => true
  | some ts =>
    match parseIso ts with
    | none => true
    | some t => t ≤ now

/-! ### Lemmas about the string scanners -/

theorem braceFree_nil : braceFree [] := by constructor <;> simp

theorem braceFree_append {a b : Str} : braceFree (a ++ b) ↔ braceFree a ∧ braceFree b := by
  unfold braceFree
  simp only [List.mem_append, not_or]
  tauto

theorem extractVarsAux_skip (ys rest : Str) :
    extractVarsAux ys.length (ys ++ rest) = extractVarsAux 0 rest := by
  induction ys with
  | nil => rfl
  | cons y ys ih => simpa [extractVarsAux] using ih

theorem extractVarsAux_append_nolb {l : Str} (R : Str) (h : lb ∉ l) :
    extractVarsAux 0 (l ++ R) = extractVarsAux 0 R := by
  induction l with
  | nil => rfl
  | cons c l ih =>
    have hc : ¬(c = lb) := fun hcl => h (hcl ▸ List.mem_cons_self c l)
    have ht : lb ∉ l := fun hm => h (List.mem_cons_of_mem _ hm)
    simpa [extractVarsAux, hc] using ih ht

theorem takeWhile_append_rb {v : Str} (R : Str) (h : rb ∉ v) :
    (v ++ rb :: R).takeWhile (fun d => d ≠ rb) = v := by
  induction v with
  | nil => rw [List.nil_append, List.takeWhile_cons, if_neg (by simp)]
  | cons c v ih =>
    have hc : ¬(c = rb) := fun hcl => h (hcl ▸ List.mem_cons_self c v)
    have ht : rb ∉ v := fun hm => h (List.mem_cons_of_mem _ hm)
    rw [List.cons_append, List.takeWhile_cons, if_pos (by simp [hc]), ih ht]

theorem replaceAllAux_skip (pat val : Str) (ys rest : Str) :
    replaceAllAux pat val ys.length (ys ++ rest) = replaceAllAux pat val 0 rest := by
  induction ys with
  | nil => rfl
  | cons y ys ih => simpa [replaceAllAux] using ih

theorem replaceAllAux_cons_nolb {p : Str} (val : Str) {c : Char} (rest : Str) (hc : c ≠ lb) :
    replaceAllAux (lb :: p) val 0 (c :: rest) = c :: replaceAllAux (lb :: p) val 0 rest := by
  have hcond : ¬(lb :: p ≠ [] ∧ (c :: rest).take (lb :: p).length = lb :: p) := by
    rintro ⟨-, htake⟩
    rw [List.length_cons, List.take_succ_cons] at htake
    injection htake with h1 h2
    exact hc h1
  rw [show replaceAllAux (lb :: p) val 0 (c :: rest)
      = if lb :: p ≠ [] ∧ (c :: rest).take (lb :: p).length = lb :: p then
          val ++ replaceAllAux (lb :: p) val ((lb :: p).length - 1) rest
        else c :: replaceAllAux (lb :: p) val 0 rest from rfl]
  rw [if_neg hcond]

theorem replaceAllAux_append_nolb {p : Str} (val : Str) {l : Str} (R : Str) (h : lb ∉ l) :
    replaceAllAux (lb :: p) val 0 (l ++ R) = l ++ replaceAllAux (lb :: p) val 0 R := by
  induction l with
  | nil => rfl
  | cons c l ih =>
    have hc : c ≠ lb := fun hcl => h (hcl ▸ List.mem_cons_self c l)
    have ht : lb ∉ l := fun hm => h (List.mem_cons_of_mem _ hm)
    rw [List.cons_append, replaceAllAux_cons_nolb _ _ hc, ih ht, List.cons_append]

theorem replaceAllAux_pat {pat : Str} (hne : pat ≠ []) (val R : Str) :
    replaceAllAux pat val 0 (pat ++ R) = val ++ replaceAllAux pat val 0 R := by
  cases pat with
  | nil => exact absurd rfl hne
  | cons q qs =>
    have hcond : (q :: qs) ≠ [] ∧ ((q :: qs) ++ R).take (q :: qs).length = q :: qs :=
      ⟨hne, List.take_left _ _⟩
    rw [List.cons_append]
    rw [show replaceAllAux (q :: qs) val 0 (q :: (qs ++ R))
        = if (q :: qs) ≠ [] ∧ (q :: (qs ++ R)).take (q :: qs).length = q :: qs then
            val ++ replaceAllAux (q :: qs) val ((q :: qs).length - 1) (qs ++ R)
          else q :: replaceAllAux (q :: qs) val 0 (qs ++ R) from rfl]
    rw [if_pos (List.cons_append q qs R ▸ hcond)]
    simp only [List.length_cons, Nat.add_sub_cancel]
    rw [replaceAllAux_skip]

theorem take_append_rb_ne : ∀ {v w : Str} (R : Str), rb ∉ v → rb ∉ w → v ≠ w →
    (w ++ rb :: R).take (v.length + 1) ≠ v ++ [rb] := by
  intro v
  induction v with
  | nil =>
    intro w R _ hw hne
    cases w with
    | nil => exact absurd rfl hne
    | cons b w =>
      rw [List.cons_append, List.length_nil, List.take_succ_cons, List.take_zero, List.nil_append]
      intro hcontra
      injection hcontra with h1 h2
      exact hw (h1 ▸ List.mem_cons_self b w)
  | cons a v ih =>
    intro w R hv hw hne
    cases w with
    | nil =>
      rw [List.nil_append, List.length_cons, List.take_succ_cons, List.cons_append]
      intro hcontra
      injection hcontra with h1 h2
      exact hv (h1 ▸ List.mem_cons_self a v)
    | cons b w =>
      rw [List.cons_append, List.length_cons, List.take_succ_cons, List.cons_append]
      intro hcontra
      injection hcontra with h1 h2
      rcases h1 with rfl
      have hv' : rb ∉ v := fun hm => hv (List.mem_cons_of_mem _ hm)
      have hw' : rb ∉ w := fun hm => hw (List.mem_cons_of_mem _ hm)
      have hne' : v ≠ w := fun hvw => hne (hvw ▸ rfl)
      exact ih R hv' hw' hne' h2

theorem replaceAllAux_phv_ne {v w : Str} (val R : Str) (hv : rb ∉ v) (hw : braceFree w)
    (hne : w ≠ v) :
    replaceAllAux (lb :: (v ++ [rb])) val 0 (lb :: (w ++ rb :: R)) =
      lb :: (w ++ rb :: replaceAllAux (lb :: (v ++ [rb])) val 0 R) := by
  have hcond : ¬(lb :: (v ++ [rb]) ≠ [] ∧
      (lb :: (w ++ rb :: R)).take (lb :: (v ++ [rb])).length = lb :: (v ++ [rb])) := by
    rintro ⟨-, htake⟩
    rw [List.length_cons, List.take_succ_cons, List.length_append, List.length_singleton] at htake
    injection htake with h1 h2
    exact take_append_rb_ne R hv hw.2 (fun h => hne h.symm) h2
  rw [show replaceAllAux (lb :: (v ++ [rb])) val 0 (lb :: (w ++ rb :: R))
      = if lb :: (v ++ [rb]) ≠ [] ∧
            (lb :: (w ++ rb :: R)).take (lb :: (v ++ [rb])).length = lb :: (v ++ [rb]) then
          val ++ replaceAllAux (lb :: (v ++ [rb])) val ((lb :: (v ++ [rb])).length - 1) (w ++ rb :: R)
        else lb :: replaceAllAux (lb :: (v ++ [rb])) val 0 (w ++ rb :: R) from rfl]
  rw [if_neg hcond]
  have hnolb : lb ∉ w ++ [rb] := by
    intro hm
    rcases List.mem_append.mp hm with hm | hm
    · exact hw.1 hm
    · rw [List.mem_singleton] at hm
      exact absurd hm (by decide)
  have := replaceAllAux_append_nolb (p := v ++ [rb]) val R hnolb
  rw [List.append_assoc, List.singleton_append] at this
  rw [this, List.append_assoc, List.singleton_append]

theorem extract_variables_render : ∀ {toks : List Tok}, toksWF toks →
    extract_variables (render toks) = phVars toks := by
  intro toks h
  induction toks with
  | nil => rfl
  | cons t ts ih =>
    have hts : toksWF ts := fun x hx => h x (List.mem_cons_of_mem _ hx)
    cases t with
    | lit txt =>
      have hl : braceFree txt := h _ (List.mem_cons_self _ _)
      show extractVarsAux 0 (txt ++ render ts) = phVars ts
      rw [extractVarsAux_append_nolb _ hl.1]
      exact ih hts
    | phv v =>
      have hv : braceFree v ∧ v ≠ [] := h _ (List.mem_cons_self _ _)
      show extractVarsAux 0 (lb :: (v ++ rb :: render ts)) = v :: phVars ts
      have hrun : (v ++ rb :: render ts).takeWhile (fun d => d ≠ rb) = v :=
        takeWhile_append_rb _ hv.1.2
      have hdrop : (v ++ rb :: render ts).drop v.length = rb :: render ts :=
        List.drop_left v (rb :: render ts)
      rw [show extractVarsAux 0 (lb :: (v ++ rb :: render ts))
          = if (lb : Char) = lb then
              (let run := (v ++ rb :: render ts).takeWhile (fun d => d ≠ rb)
               if run ≠ [] ∧ (v ++ rb :: render ts).drop run.length ≠ [] then
                 run :: extractVarsAux (run.length + 1) (v ++ rb :: render ts)
               else
                 extractVarsAux 0 (v ++ rb :: render ts))
            else extractVarsAux 0 (v ++ rb :: render ts) from rfl]
      rw [if_pos rfl]
      simp only [hrun, hdrop]
      rw [if_pos ⟨hv.2, List.cons_ne_nil _ _⟩]
      have hskip : extractVarsAux (v.length + 1) (v ++ rb :: render ts)
          = extractVarsAux 0 (render ts) := by
        have := extractVarsAux_skip (v ++ [rb]) (render ts)
        rwa [List.append_assoc, List.singleton_append, List.length_append,
          List.length_singleton] at this
      rw [hskip]
      exact congrArg (v :: ·) (ih hts)

theorem replaceAll_render {v val : Str} (hv : rb ∉ v) :
    ∀ {toks : List Tok}, toksWF toks →
      replaceAllAux (lb :: (v ++ [rb])) val 0 (render toks) = render (substTok v val toks) := by
  intro toks h
  induction toks with
  | nil => rfl
  | cons t ts ih =>
    have hts : toksWF ts := fun x hx => h x (List.mem_cons_of_mem _ hx)
    cases t with
    | lit txt =>
      have hl : braceFree txt := h _ (List.mem_cons_self _ _)
      show replaceAllAux (lb :: (v ++ [rb])) val 0 (txt ++ render ts)
          = txt ++ render (substTok v val ts)
      rw [replaceAllAux_append_nolb _ _ hl.1, ih hts]
    | phv w =>
      have hw : braceFree w ∧ w ≠ [] := h _ (List.mem_cons_self _ _)
      by_cases hwv : w = v
      · subst hwv
        show replaceAllAux (lb :: (w ++ [rb])) val 0 (lb :: (w ++ rb :: render ts))
            = render (substTok w val (Tok.phv w :: ts))
        have hshape : lb :: (w ++ rb :: render ts) = (lb :: (w ++ [rb])) ++ render ts := by
          rw [List.cons_append, List.append_assoc, List.singleton_append]
        rw [hshape, replaceAllAux_pat (List.cons_ne_nil _ _) val (render ts)]
        have hsub : substTok w val (Tok.phv w :: ts) = Tok.lit val :: substTok w val ts := by
          simp [substTok]
        rw [hsub]
        show val ++ _ = val ++ render (substTok w val ts)
        rw [ih hts]
      · show replaceAllAux (lb :: (v ++ [rb])) val 0 (lb :: (w ++ rb :: render ts))
            = render (substTok v val (Tok.phv w :: ts))
        have hsub : substTok v val (Tok.phv w :: ts) = Tok.phv w :: substTok v val ts := by
          simp [substTok, hwv]
        rw [replaceAllAux_phv_ne val (render ts) hv hw.1 hwv, ih hts, hsub]
        rfl

theorem mem_phVars_substTok {w v val : Str} : ∀ {toks : List Tok},
    w ∈ phVars (substTok v val toks) → w ∈ phVars toks ∧ w ≠ v := by
  intro toks
  induction toks with
  | nil => intro h; exact absurd h (List.not_mem_nil w)
  | cons t ts ih =>
    cases t with
    | lit txt =>
      intro h
      have h' : w ∈ phVars (substTok v val ts) := h
      exact ⟨(ih h').1, (ih h').2⟩
    | phv u =>
      by_cases huv : u = v
      · intro h
        have h' : w ∈ phVars (substTok v val ts) := by
          have hsub : substTok v val (Tok.phv u :: ts) = Tok.lit val :: substTok v val ts := by
            simp [substTok, huv]
          rwa [hsub] at h
        exact ⟨List.mem_cons_of_mem _ (ih h').1, (ih h').2⟩
      · intro h
        have hsub : substTok v val (Tok.phv u :: ts) = Tok.phv u :: substTok v val ts := by
          simp [substTok, huv]
        rw [hsub] at h
        rcases List.mem_cons.mp h with rfl | h'
        · exact ⟨List.mem_cons_self _ _, huv⟩
        · exact ⟨List.mem_cons_of_mem _ (ih h').1, (ih h').2⟩

theorem toksWF_substTok {v val : Str} {toks : List Tok} (h : toksWF toks)
    (hval : braceFree val) : toksWF (substTok v val toks) := by
  intro t ht
  rcases List.mem_map.mp ht with ⟨u, hu, rfl⟩
  cases u with
  | lit txt => exact h _ hu
  | phv w =>
    by_cases hwv : w = v
    · simpa [tokWF, hwv] using hval
    · simpa [tokWF, hwv] using h _ hu

theorem phVars_wf : ∀ {toks : List Tok}, toksWF toks → ∀ v ∈ phVars toks, braceFree v := by
  intro toks h
  induction toks with
  | nil => intro v hv; exact absurd hv (List.not_mem_nil v)
  | cons t ts ih =>
    have hts : toksWF ts := fun x hx => h x (List.mem_cons_of_mem _ hx)
    cases t with
    | lit txt => exact fun v hv => ih hts v hv
    | phv u =>
      intro v hv
      rcases List.mem_cons.mp hv with rfl | hv'
      · exact (h _ (List.mem_cons_self _ _)).1
      · exact ih hts v hv'

theorem substituteVar_eq (character : CharacterT) (custom_variables : List (Str × Str))
    (pick : List Str → Str) (p var : Str) :
    substituteVar character custom_variables pick p var
      = replaceAll (lb :: (var ++ [rb])) (valueFor character custom_variables pick var) p := by
  unfold substituteVar valueFor
  cases lookupStr custom_variables var with
  | some v => rfl
  | none => cases lookupStr (default_values character) var <;> rfl

theorem lookupStr_mem {α : Type} : ∀ {l : List (Str × α)} {k : Str} {v : α},
    lookupStr l k = some v → ∃ p ∈ l, p.2 = v := by
  intro l
  induction l with
  | nil => intro k v h; exact absurd h (by simp [lookupStr])
  | cons q rest ih =>
    intro k v h
    rw [show lookupStr (q :: rest) k = if q.1 = k then some q.2 else lookupStr rest k from rfl] at h
    by_cases hq : q.1 = k
    · rw [if_pos hq] at h
      exact ⟨q, List.mem_cons_self _ _, Option.some.injEq .. ▸ h⟩
    · rw [if_neg hq] at h
      rcases ih h with ⟨p, hp, hpv⟩
      exact ⟨p, List.mem_cons_of_mem _ hp, hpv⟩

theorem default_values_braceFree {character : CharacterT}
    (hn : braceFree character.name) (hp : braceFree character.personality) :
    ∀ p ∈ default_values character, ∀ x ∈ p.2, braceFree x := by
  intro p hp'
  simp only [default_values, List.mem_cons, List.not_mem_nil, or_false] at hp'
  rcases hp' with rfl | rfl | rfl | rfl | rfl | rfl | rfl | rfl | rfl | rfl | rfl | rfl | rfl | rfl
  · intro x hx
    rcases List.mem_singleton.mp hx with rfl
    exact hn
  · intro x hx
    rcases List.mem_singleton.mp hx with rfl
    exact hp
  all_goals exact fun x hx => by fin_cases hx <;> decide

theorem valueFor_braceFree {character : CharacterT} {custom_variables : List (Str × Str)}
    {pick : List Str → Str}
    (hn : braceFree character.name) (hp : braceFree character.personality)
    (hcustom : ∀ q ∈ custom_variables, braceFree q.2)
    (hpick : ∀ l, braceFree (pick l) ∨ pick l ∈ l) :
    ∀ var, braceFree (valueFor character custom_variables pick var) := by
  intro var
  unfold valueFor
  cases hcu : lookupStr custom_variables var with
  | some v =>
    rcases lookupStr_mem hcu with ⟨q, hq, hqv⟩
    exact hqv ▸ hcustom q hq
  | none =>
    cases hd : lookupStr (default_values character) var with
    | some l =>
      rcases hpick l with h | h
      · exact h
      · rcases lookupStr_mem hd with ⟨q, hq, hqv⟩
        exact default_values_braceFree hn hp q hq _ (hqv ▸ h)
    | none => exact ⟨List.not_mem_nil _, List.not_mem_nil _⟩

theorem foldl_substituteVar_render (character : CharacterT)
    (custom_variables : List (Str × Str)) (pick : List Str → Str)
    (hvals : ∀ var, braceFree (valueFor character custom_variables pick var)) :
    ∀ (vs : List Str), (∀ v ∈ vs, rb ∉ v) → ∀ {toks : List Tok}, toksWF toks →
      vs.foldl (substituteVar character custom_variables pick) (render toks)
        = render (vs.foldl (substTokStep character custom_variables pick) toks) := by
  intro vs
  induction vs with
  | nil => intro _ toks _; rfl
  | cons v vs ih =>
    intro hvs toks h
    have hv : rb ∉ v := hvs v (List.mem_cons_self _ _)
    have hstep : substituteVar character custom_variables pick (render toks) v
        = render (substTokStep character custom_variables pick toks v) := by
      rw [substituteVar_eq]
      exact replaceAll_render hv h
    show vs.foldl _ (substituteVar character custom_variables pick (render toks) v) = _
    rw [hstep]
    exact ih (fun u hu => hvs u (List.mem_cons_of_mem _ hu))
      (toksWF_substTok h (hvals v))

theorem toksWF_foldl (character : CharacterT) (custom_variables : List (Str × Str))
    (pick : List Str → Str)
    (hvals : ∀ var, braceFree (valueFor character custom_variables pick var)) :
    ∀ (vs : List Str) {toks : List Tok}, toksWF toks →
      toksWF (vs.foldl (substTokStep character custom_variables pick) toks) := by
  intro vs
  induction vs with
  | nil => intro toks h; exact h
  | cons v vs ih => intro toks h; exact ih (toksWF_substTok h (hvals v))

theorem phVars_foldl_nil (character : CharacterT) (custom_variables : List (Str × Str))
    (pick : List Str → Str) :
    ∀ (vs : List Str) (toks : List Tok), (∀ w, w ∈ phVars toks → w ∈ vs) →
      phVars (vs.foldl (substTokStep character custom_variables pick) toks) = [] := by
  intro vs
  induction vs with
  | nil =>
    intro toks h
    exact List.eq_nil_iff_forall_not_mem.mpr (fun w hw => List.not_mem_nil w (h w hw))
  | cons v vs ih =>
    intro toks h
    apply ih
    intro w hw
    have h2 := mem_phVars_substTok hw
    rcases List.mem_cons.mp (h w h2.1) with rfl | hmem
    · exact absurd rfl h2.2
    · exact hmem

theorem braceFree_render : ∀ {toks : List Tok}, toksWF toks → phVars toks = [] →
    braceFree (render toks) := by
  intro toks h hph
  induction toks with
  | nil => exact braceFree_nil
  | cons t ts ih =>
    have hts : toksWF ts := fun x hx => h x (List.mem_cons_of_mem _ hx)
    cases t with
    | lit txt =>
      have : braceFree txt := h _ (List.mem_cons_self _ _)
      exact braceFree_append.mpr ⟨this, ih hts hph⟩
    | phv u => exact absurd hph (List.cons_ne_nil _ _)

theorem mem_replaceAllAux {c : Char} (pat val : Str) :
    ∀ (xs : Str) (k : Nat), c ∈ replaceAllAux pat val k xs → c ∈ xs ∨ c ∈ val := by
  intro xs
  induction xs with
  | nil =>
    intro k h
    have hnil : replaceAllAux pat val k [] = [] := by cases k <;> rfl
    rw [hnil] at h
    exact absurd h (List.not_mem_nil c)
  | cons x rest ih =>
    intro k
    cases k with
    | succ k =>
      intro h
      rcases ih k h with h1 | h1
      · exact Or.inl (List.mem_cons_of_mem _ h1)
      · exact Or.inr h1
    | zero =>
      rw [show replaceAllAux pat val 0 (x :: rest)
          = if pat ≠ [] ∧ (x :: rest).take pat.length = pat then
              val ++ replaceAllAux pat val (pat.length - 1) rest
            else x :: replaceAllAux pat val 0 rest from rfl]
      split
      · intro h
        rcases List.mem_append.mp h with h1 | h1
        · exact Or.inr h1
        · rcases ih _ h1 with h2 | h2
          · exact Or.inl (List.mem_cons_of_mem _ h2)
          · exact Or.inr h2
      · intro h
        rcases List.mem_cons.mp h with rfl | h1
        · exact Or.inl (List.mem_cons_self _ _)
        · rcases ih _ h1 with h2 | h2
          · exact Or.inl (List.mem_cons_of_mem _ h2)
          · exact Or.inr h2

theorem mem_dropWhileStr {c : Char} (p : Char → Bool) :
    ∀ {xs : Str}, c ∈ xs.dropWhile p → c ∈ xs := by
  intro xs
  induction xs with
  | nil => intro h; exact h
  | cons x rest ih =>
    intro h
    rw [List.dropWhile_cons] at h
    by_cases hx : p x = true
    · rw [if_pos hx] at h
      exact List.mem_cons_of_mem _ (ih h)
    · rw [if_neg hx] at h
      exact h

theorem mem_pyStrip {c : Char} {xs : Str} (h : c ∈ pyStrip xs) : c ∈ xs := by
  unfold pyStrip at h
  have h1 := List.mem_reverse.mp h
  have h2 := List.mem_reverse.mp (mem_dropWhileStr _ h1)
  exact mem_dropWhileStr _ h2

theorem extractVarsAux_nil_of_no_lb : ∀ {xs : Str}, lb ∉ xs → extractVarsAux 0 xs = [] := by
  intro xs
  induction xs with
  | nil => intro _; rfl
  | cons x rest ih =>
    intro h
    have hx : ¬(x = lb) := fun hxl => h (hxl ▸ List.mem_cons_self x rest)
    simpa [extractVarsAux, hx] using ih (fun hm => h (List.mem_cons_of_mem _ hm))

/-! ### Lemmas about the polling loops -/

theorem appPollLoop_sleeps (comfyUrl : Str) (oracle : Nat → PollResp) :
    ∀ (fuel start : Nat),
      (appPollLoop comfyUrl oracle start fuel).2
          = List.replicate (appPollLoop comfyUrl oracle start fuel).2.length 2 ∧
        ((appPollLoop comfyUrl oracle start fuel).1 = none →
          (appPollLoop comfyUrl oracle start fuel).2.length = fuel) := by
  intro fuel
  induction fuel with
  | zero => intro start; exact ⟨rfl, fun _ => rfl⟩
  | succ fuel ih =>
    intro start
    rw [show appPollLoop comfyUrl oracle start (fuel + 1)
        = match appPollStep comfyUrl (oracle start) with
          | some out => (some out, [])
          | none =>
            let r := appPollLoop comfyUrl oracle (start + 1) fuel
            (r.1, 2 :: r.2) from rfl]
    cases appPollStep comfyUrl (oracle start) with
    | some out => exact ⟨rfl, fun h => absurd h (by simp)⟩
    | none =>
      refine ⟨?_, ?_⟩
      · show 2 :: (appPollLoop comfyUrl oracle (start + 1) fuel).2
            = List.replicate (2 :: (appPollLoop comfyUrl oracle (start + 1) fuel).2).length 2
        rw [List.length_cons, List.replicate_succ]
        exact congrArg (2 :: ·) (ih (start + 1)).1
      · intro h
        show (2 :: (appPollLoop comfyUrl oracle (start + 1) fuel).2).length = fuel + 1
        rw [List.length_cons, (ih (start + 1)).2 h]

theorem dallaPollLoop_sleeps (oracle : Nat → PollResp) :
    ∀ (fuel start : Nat),
      (dallaPollLoop oracle start fuel).2
          = List.replicate (dallaPollLoop oracle start fuel).2.length 1 ∧
        ((dallaPollLoop oracle start fuel).1 = none →
          (dallaPollLoop oracle start fuel).2.length = fuel) := by
  intro fuel
  induction fuel with
  | zero => intro start; exact ⟨rfl, fun _ => rfl⟩
  | succ fuel ih =>
    intro start
    rw [show dallaPollLoop oracle start (fuel + 1)
        = match dallaPollStep (oracle start) with
          | some out => (some out, [])
          | none =>
            let r := dallaPollLoop oracle (start + 1) fuel
            (r.1, 1 :: r.2) from rfl]
    cases dallaPollStep (oracle start) with
    | some out => exact ⟨rfl, fun h => absurd h (by simp)⟩
    | none =>
      refine ⟨?_, ?_⟩
      · show 1 :: (dallaPollLoop oracle (start + 1) fuel).2
            = List.replicate (1 :: (dallaPollLoop oracle (start + 1) fuel).2).length 1
        rw [List.length_cons, List.replicate_succ]
        exact congrArg (1 :: ·) (ih (start + 1)).1
      · intro h
        show (1 :: (dallaPollLoop oracle (start + 1) fuel).2).length = fuel + 1
        rw [List.length_cons, (ih (start + 1)).2 h]

theorem appPollLoop_first_ready (comfyUrl : Str) (oracle : Nat → PollResp) (out : Except Str Str) :
    ∀ (n start fuel : Nat), (∀ j, j < n → appPollStep comfyUrl (oracle (start + j)) = none) →
      appPollStep comfyUrl (oracle (start + n)) = some out → n < fuel →
      appPollLoop comfyUrl oracle start fuel = (some out, List.replicate n 2) := by
  intro n
  induction n with
  | zero =>
    intro start fuel _ hn hfuel
    cases fuel with
    | zero => exact absurd hfuel (by omega)
    | succ fuel =>
      rw [show appPollLoop comfyUrl oracle start (fuel + 1)
          = match appPollStep comfyUrl (oracle start) with
            | some o => (some o, [])
            | none =>
              let r := appPollLoop comfyUrl oracle (start + 1) fuel
              (r.1, 2 :: r.2) from rfl]
      rw [show start + 0 = start from rfl] at hn
      rw [hn]
      rfl
  | succ n ih =>
    intro start fuel hbefore hn hfuel
    cases fuel with
    | zero => exact absurd hfuel (by omega)
    | succ fuel =>
      rw [show appPollLoop comfyUrl oracle start (fuel + 1)
          = match appPollStep comfyUrl (oracle start) with
            | some o => (some o, [])
            | none =>
              let r := appPollLoop comfyUrl oracle (start + 1) fuel
              (r.1, 2 :: r.2) from rfl]
      have h0 : appPollStep comfyUrl (oracle start) = none := by
        have := hbefore 0 (by omega)
        rwa [Nat.add_zero] at this
      rw [h0]
      have hrec : appPollLoop comfyUrl oracle (start + 1) fuel = (some out, List.replicate n 2) := by
        apply ih
        · intro j hj
          have := hbefore (j + 1) (by omega)
          rwa [show start + (j + 1) = start + 1 + j by omega] at this
        · rwa [show start + 1 + n = start + (n + 1) by omega]
        · omega
      rw [hrec]
      rfl

theorem dallaPollLoop_first_ready (oracle : Nat → PollResp) (fn : Str) :
    ∀ (n start fuel : Nat), (∀ j, j < n → dallaPollStep (oracle (start + j)) = none) →
      dallaPollStep (oracle (start + n)) = some fn → n < fuel →
      dallaPollLoop oracle start fuel = (some fn, List.replicate n 1) := by
  intro n
  induction n with
  | zero =>
    intro start fuel _ hn hfuel
    cases fuel with
    | zero => exact absurd hfuel (by omega)
    | succ fuel =>
      rw [show dallaPollLoop oracle start (fuel + 1)
          = match dallaPollStep (oracle start) with
            | some o => (some o, [])
            | none =>
              let r := dallaPollLoop oracle (start + 1) fuel
              (r.1, 1 :: r.2) from rfl]
      rw [show start + 0 = start from rfl] at hn
      rw [hn]
      rfl
  | succ n ih =>
    intro start fuel hbefore hn hfuel
    cases fuel with
    | zero => exact absurd hfuel (by omega)
    | succ fuel =>
      rw [show dallaPollLoop oracle start (fuel + 1)
          = match dallaPollStep (oracle start) with
            | some o => (some o, [])
            | none =>
              let r := dallaPollLoop oracle (start + 1) fuel
              (r.1, 1 :: r.2) from rfl]
      have h0 : dallaPollStep (oracle start) = none := by
        have := hbefore 0 (by omega)
        rwa [Nat.add_zero] at this
      rw [h0]
      have hrec : dallaPollLoop oracle (start + 1) fuel = (some fn, List.replicate n 1) := by
        apply ih
        · intro j hj
          have := hbefore (j + 1) (by omega)
          rwa [show start + (j + 1) = start + 1 + j by omega] at this
        · rwa [show start + 1 + n = start + (n + 1) by omega]
        · omega
      rw [hrec]
      rfl

theorem appPollLoop_diverges (comfyUrl : Str) (oracle : Nat → PollResp)
    (h : ∀ j, appPollStep comfyUrl (oracle j) = none) :
    ∀ (fuel start : Nat), (appPollLoop comfyUrl oracle start fuel).1 = none := by
  intro fuel
  induction fuel with
  | zero => intro start; rfl
  | succ fuel ih =>
    intro start
    rw [show appPollLoop comfyUrl oracle start (fuel + 1)
        = match appPollStep comfyUrl (oracle start) with
          | some o => (some o, [])
          | none =>
            let r := appPollLoop comfyUrl oracle (start + 1) fuel
            (r.1, 2 :: r.2) from rfl]
    rw [h start]
    exact ih (start + 1)

theorem dallaPollLoop_diverges (oracle : Nat → PollResp)
    (h : ∀ j, dallaPollStep (oracle j) = none) :
    ∀ (fuel start : Nat), (dallaPollLoop oracle start fuel).1 = none := by
  intro fuel
  induction fuel with
  | zero => intro start; rfl
  | succ fuel ih =>
    intro start
    rw [show dallaPollLoop oracle start (fuel + 1)
        = match dallaPollStep (oracle start) with
          | some o => (some o, [])
          | none =>
            let r := dallaPollLoop oracle (start + 1) fuel
            (r.1, 1 :: r.2) from rfl]
    rw [h start]
    exact ih (start + 1)

theorem firstImagesNode_ne_nil {outputs : List (Str × NodeOut)} {imgs : List Img}
    (h : firstImagesNode outputs = some imgs) : outputs ≠ [] := by
  cases outputs with
  | nil => exact absurd h (by simp [firstImagesNode])
  | cons o rest => exact List.cons_ne_nil _ _

/-! ### Lemmas about filters, folds and the JSON round trip -/

theorem filter_length_eq_iff {α : Type} {p : α → Bool} :
    ∀ {l : List α}, ((l.filter p).length = l.length ↔ ∀ a ∈ l, p a = true) := by
  intro l
  induction l with
  | nil => simp
  | cons x rest ih =>
    by_cases hx : p x = true
    · rw [List.filter_cons_of_pos hx]
      simp only [List.length_cons, Nat.add_right_cancel_iff, List.mem_cons]
      constructor
      · intro h a ha
        rcases ha with rfl | ha
        · exact hx
        · exact ih.mp h a ha
      · intro h
        exact ih.mpr (fun a ha => h a (Or.inr ha))
    · rw [List.filter_cons_of_neg hx]
      constructor
      · intro h
        have hle := List.length_filter_le p rest
        rw [List.length_cons] at h
        omega
      · intro h
        exact absurd (h x (List.mem_cons_self x rest)) hx

theorem map_filter_comp {α β : Type} (f : α → β) (p : β → Bool) :
    ∀ (l : List α), (l.filter (fun a => p (f a))).map f = (l.map f).filter p := by
  intro l
  induction l with
  | nil => rfl
  | cons x rest ih =>
    by_cases hx : p (f x) = true
    · simp [List.filter_cons, List.map_cons, hx, ih]
    · simp [List.filter_cons, List.map_cons, hx, ih]

theorem foldl_if_append {α β : Type} (cond : α → Bool) (mk : α → β) :
    ∀ (l : List α) (acc : List β),
      l.foldl (fun jobs task => if cond task then jobs ++ [mk task] else jobs) acc
        = acc ++ (l.filter cond).map mk := by
  intro l
  induction l with
  | nil => intro acc; simp
  | cons x rest ih =>
    intro acc
    by_cases hx : cond x = true
    · rw [List.foldl_cons, if_pos hx, ih, List.filter_cons_of_pos hx, List.map_cons]
      simp
    · rw [List.foldl_cons, if_neg (by simp [hx]), ih, List.filter_cons_of_neg hx]

theorem foldl_append_gen {α β : Type} (g : α → List β) :
    ∀ (l : List α) (acc : List β),
      l.foldl (fun jobs task => jobs ++ g task) acc = acc ++ l.flatMap g := by
  intro l
  induction l with
  | nil => intro acc; simp
  | cons x rest ih =>
    intro acc
    rw [List.foldl_cons, ih, List.flatMap_cons, List.append_assoc]

theorem asOptStr_optStrJson (o : Option Str) : asOptStr (optStrJson o) = some o := by
  cases o <;> rfl

theorem psFromJson_psToJson (p : PromptSettingsM) : psFromJson (psToJson p) = some p := rfl

theorem narFromJson_narToJson (n : NarrativeM) : narFromJson (narToJson n) = some n := rfl

theorem decodeList_nar_round (l : List NarrativeM) :
    decodeList narFromJson (l.map narToJson) = some l := by
  induction l with
  | nil => rfl
  | cons n rest ih =>
    simp only [List.map_cons, decodeList, narFromJson_narToJson, ih]

theorem cs_eq_cs_iff (a b : String) : cs a = cs b ↔ a = b := by
  unfold cs
  constructor
  · intro h
    cases a
    cases b
    exact congrArg String.mk h
  · intro h
    exact congrArg String.data h

theorem charFromJson_charToJson (c : CharacterM) : charFromJson (charToJson c) = some c := by
  simp [charToJson, charFromJson, jLookup, psFromJson_psToJson,
    decodeList_nar_round, getOptStr, asOptStr_optStrJson, asStr, asBool, cs_eq_cs_iff]

theorem decodeList_char_round (l : List CharacterM) :
    decodeList charFromJson (l.map charToJson) = some l := by
  induction l with
  | nil => rfl
  | cons c rest ih =>
    simp only [List.map_cons, decodeList, charFromJson_charToJson, ih]

/-! ### Claim theorems -/

/-- Claim C1, counterexample: `generate_from_template` does not always
remove every placeholder of the template.  For the template consisting of
the placeholders `b` and `a` and the custom variable `a` mapped to the text
of the `b` placeholder, the returned prompt still contains the placeholder
for `b`, one of the template's own variables. -/
theorem C1_counterexample :
    extract_variables
        (generate_from_template
          ⟨cs "template_1", cs "t", cs "general",
            lb :: (cs "b" ++ [rb] ++ cs " " ++ [lb] ++ cs "a" ++ [rb])⟩
          ⟨cs "Alice", cs "brave"⟩ [(cs "a", lb :: (cs "b" ++ [rb]))] (fun l => l.headD []))
      = [cs "b"] ∧
    cs "b" ∈ extract_variables (lb :: (cs "b" ++ [rb] ++ cs " " ++ [lb] ++ cs "a" ++ [rb])) := by
  constructor
  · decide
  · decide

/-- Claim C1 (amended): for a template that is a well-formed alternation of
brace-free literal text and `{var}` placeholders with non-empty brace-free
variable names, and substituted values that contain no brace characters
(every custom-variable value, the character's name and personality, and
whatever `random.choice` may return), `generate_from_template` resolves
every placeholder — custom value first, then defaults table, then the empty
string — and the returned prompt contains no remaining `{variable}`
placeholder at all. -/
theorem C1_template_placeholders_resolved (toks : List Tok) (tid tname tcat : Str)
    (character : CharacterT) (custom_variables : List (Str × Str)) (pick : List Str → Str)
    (hWF : toksWF toks)
    (hname : braceFree character.name) (hpers : braceFree character.personality)
    (hcustom : ∀ q ∈ custom_variables, braceFree q.2)
    (hpick : ∀ l, braceFree (pick l) ∨ pick l ∈ l) :
    extract_variables
      (generate_from_template ⟨tid, tname, tcat, render toks⟩ character custom_variables pick)
      = [] := by
  have hvals : ∀ var, braceFree (valueFor character custom_variables pick var) :=
    valueFor_braceFree hname hpers hcustom hpick
  have hdef : generate_from_template ⟨tid, tname, tcat, render toks⟩ character
        custom_variables pick
      = pyStrip (replaceAll (cs "  ") (cs " ")
          ((extract_variables (render toks)).foldl
            (substituteVar character custom_variables pick) (render toks))) := rfl
  rw [hdef, extract_variables_render hWF]
  have hrb : ∀ v ∈ phVars toks, rb ∉ v := fun v hv => (phVars_wf hWF v hv).2
  rw [foldl_substituteVar_render character custom_variables pick hvals (phVars toks) hrb hWF]
  have hWF2 : toksWF ((phVars toks).foldl (substTokStep character custom_variables pick) toks) :=
    toksWF_foldl character custom_variables pick hvals (phVars toks) hWF
  have hph : phVars ((phVars toks).foldl (substTokStep character custom_variables pick) toks)
      = [] :=
    phVars_foldl_nil character custom_variables pick (phVars toks) toks (fun w hw => hw)
  have hbf : braceFree
      (render ((phVars toks).foldl (substTokStep character custom_variables pick) toks)) :=
    braceFree_render hWF2 hph
  have hnolb : lb ∉ pyStrip (replaceAll (cs "  ") (cs " ")
      (render ((phVars toks).foldl (substTokStep character custom_variables pick) toks))) := by
    intro hm
    have h1 := mem_pyStrip hm
    have h2 := mem_replaceAllAux (cs "  ") (cs " ")
      (render ((phVars toks).foldl (substTokStep character custom_variables pick) toks)) 0 h1
    rcases h2 with h3 | h3
    · exact hbf.1 h3
    · exact absurd h3 (by decide)
  exact extractVarsAux_nil_of_no_lb hnolb

/-- Witness for C1: the amended theorem applied to the concrete template
`a {style} of {character}` with a brace-free custom map and a constant
brace-free `random.choice`. -/
theorem C1_witness :
    extract_variables
      (generate_from_template
        ⟨cs "template_2", cs "t", cs "general",
          render [Tok.lit (cs "a "), Tok.phv (cs "style"), Tok.lit (cs " of "),
            Tok.phv (cs "character")]⟩
        ⟨cs "Alice", cs "brave"⟩ [(cs "mood", cs "calm")] (fun _ => cs "x"))
      = [] :=
  C1_template_placeholders_resolved
    [Tok.lit (cs "a "), Tok.phv (cs "style"), Tok.lit (cs " of "), Tok.phv (cs "character")]
    (cs "template_2") (cs "t") (cs "general")
    ⟨cs "Alice", cs "brave"⟩ [(cs "mood", cs "calm")] (fun _ => cs "x")
    (by decide) (by decide) (by decide) (by decide)
    (fun l => Or.inl (show braceFree (cs "x") by decide))

/-- Claim C2: in both polling loops the wait between consecutive polls is
the same fixed constant on every iteration — every sleep performed by the
single-file server's loop is 2 seconds and every sleep of the python_dalla
loop is 1 second, so the interval never increases — and no iteration stops
the loop on its own: as long as no poll produces a result the loop keeps
polling, performing exactly one sleep per unfinished iteration with no
backoff computation, cancellation check, or iteration-count bound. -/
theorem C2_fixed_poll_interval (comfyUrl : Str) (oracleA oracleD : Nat → PollResp)
    (fuel : Nat) :
    ((run_image_generation_poll comfyUrl oracleA fuel).2
        = List.replicate (run_image_generation_poll comfyUrl oracleA fuel).2.length 2) ∧
    ((run_image_generation_poll comfyUrl oracleA fuel).1 = none →
      (run_image_generation_poll comfyUrl oracleA fuel).2.length = fuel) ∧
    ((generate_image_poll oracleD fuel).2
        = List.replicate (generate_image_poll oracleD fuel).2.length 1) ∧
    ((generate_image_poll oracleD fuel).1 = none →
      (generate_image_poll oracleD fuel).2.length = fuel) :=
  ⟨(appPollLoop_sleeps comfyUrl oracleA fuel 0).1,
    (appPollLoop_sleeps comfyUrl oracleA fuel 0).2,
    (dallaPollLoop_sleeps oracleD fuel 0).1,
    (dallaPollLoop_sleeps oracleD fuel 0).2⟩

/-- Witness for C2: with an oracle that never reports the job finished, a
3-iteration prefix of each loop performs exactly 3 sleeps. -/
theorem C2_witness :
    (run_image_generation_poll (cs "http://127.0.0.1:8188")
        (fun _ => ⟨false, []⟩) 3).2.length = 3 ∧
    (generate_image_poll (fun _ => ⟨false, []⟩) 3).2.length = 3 := by
  have h := C2_fixed_poll_interval (cs "http://127.0.0.1:8188")
    (fun _ => ⟨false, []⟩) (fun _ => ⟨false, []⟩) 3
  exact ⟨h.2.1 rfl, h.2.2.2 rfl⟩

/-- Claim C3, counterexample: the precondition of the claim holds — poll 1
of `oracleC3` carries a node with a non-empty `images` entry — yet the
single-file server's loop does not return that image: at poll 0 the outputs
record is non-empty without any `images` key, so the loop raises
`No image output found in completed workflow` instead of polling again. -/
theorem C3_counterexample :
    (oracleC3 1).found = true ∧
    firstImagesNode (oracleC3 1).outputs = some [⟨cs "out.png", cs "output"⟩] ∧
    (run_image_generation_poll (cs "http://127.0.0.1:8188") oracleC3 5).1
        = some (Except.error (cs "No image output found in completed workflow")) ∧
    ¬((run_image_generation_poll (cs "http://127.0.0.1:8188") oracleC3 5).1
        = some (Except.ok (cs "http://127.0.0.1:8188" ++ cs "/view?filename="
            ++ cs "out.png"))) := by
  refine ⟨rfl, rfl, rfl, ?_⟩
  intro h
  rw [show (run_image_generation_poll (cs "http://127.0.0.1:8188") oracleC3 5).1
      = some (Except.error (cs "No image output found in completed workflow")) from rfl] at h
  exact Except.noConfusion (Option.some.inj h)

/-- Claim C3 (amended): let poll `n` be the first poll at which the loop's
readiness condition holds.  For the single-file server the condition is
that the history contains the prompt id with a non-empty outputs record,
and termination with the first image's `/view` URL additionally needs the
first `images`-bearing node to carry a non-empty image list (a ready poll
without that raises instead of returning).  For python_dalla the condition
is that the history is available and some node's images contain an image of
type `output`, whose filename is returned.  In both loops the first ready
poll ends the loop after exactly `n` sleeps, and if no poll is ever ready
the loop never returns, however much fuel it is given. -/
theorem C3_poll_first_image (comfyUrl : Str) (oracleA oracleD oracleAP oracleDP : Nat → PollResp)
    (n fuel : Nat) (img : Img) (imgs : List Img) (fn : Str) :
    ((∀ j, j < n → ¬((oracleA j).found = true ∧ (oracleA j).outputs ≠ [])) →
      (oracleA n).found = true →
      firstImagesNode (oracleA n).outputs = some (img :: imgs) →
      n < fuel →
      run_image_generation_poll comfyUrl oracleA fuel
        = (some (Except.ok (comfyUrl ++ cs "/view?filename=" ++ img.filename)),
            List.replicate n 2)) ∧
    ((∀ j, j < n → ((oracleD j).found = false ∨ findOutputImage (oracleD j).outputs = none)) →
      (oracleD n).found = true →
      findOutputImage (oracleD n).outputs = some fn →
      n < fuel →
      generate_image_poll oracleD fuel = (some fn, List.replicate n 1)) ∧
    ((∀ j, ((oracleAP j).found = false ∨ (oracleAP j).outputs = [])) →
      (run_image_generation_poll comfyUrl oracleAP fuel).1 = none) ∧
    ((∀ j, ((oracleDP j).found = false ∨ findOutputImage (oracleDP j).outputs = none)) →
      (generate_image_poll oracleDP fuel).1 = none) := by
  refine ⟨?_, ?_, ?_, ?_⟩
  · intro h1 h2 h3 hf
    have houts : (oracleA n).outputs ≠ [] := firstImagesNode_ne_nil h3
    have hstep : appPollStep comfyUrl (oracleA n)
        = some (Except.ok (comfyUrl ++ cs "/view?filename=" ++ img.filename)) := by
      unfold appPollStep
      rw [if_pos ⟨h2, houts⟩, h3]
    have hbefore : ∀ j, j < n → appPollStep comfyUrl (oracleA (0 + j)) = none := by
      intro j hj
      rw [Nat.zero_add]
      unfold appPollStep
      rw [if_neg (h1 j hj)]
    exact appPollLoop_first_ready comfyUrl oracleA _ n 0 fuel hbefore
      (by rw [Nat.zero_add]; exact hstep) hf
  · intro h1 h2 h3 hf
    have hstep : dallaPollStep (oracleD n) = some fn := by
      unfold dallaPollStep
      rw [if_pos h2, h3]
    have hbefore : ∀ j, j < n → dallaPollStep (oracleD (0 + j)) = none := by
      intro j hj
      rw [Nat.zero_add]
      unfold dallaPollStep
      rcases h1 j hj with hfo | hio
      · rw [if_neg (by simp [hfo])]
      · by_cases hfd : (oracleD j).found = true
        · rw [if_pos hfd, hio]
        · rw [if_neg hfd]
    exact dallaPollLoop_first_ready oracleD fn n 0 fuel hbefore
      (by rw [Nat.zero_add]; exact hstep) hf
  · intro h
    have hstep : ∀ j, appPollStep comfyUrl (oracleAP j) = none := by
      intro j
      unfold appPollStep
      rcases h j with hfo | ho
      · rw [if_neg (by simp [hfo])]
      · rw [if_neg (by simp [ho])]
    exact appPollLoop_diverges comfyUrl oracleAP hstep fuel 0
  · intro h
    have hstep : ∀ j, dallaPollStep (oracleDP j) = none := by
      intro j
      unfold dallaPollStep
      rcases h j with hfo | hio
      · rw [if_neg (by simp [hfo])]
      · by_cases hfd : (oracleDP j).found = true
        · rw [if_pos hfd, hio]
        · rw [if_neg hfd]
    exact dallaPollLoop_diverges oracleDP hstep fuel 0

/-- Witness for C3: an oracle pending at poll 0 and ready at poll 1 makes
both loops return at poll 1 after one sleep, and the never-ready oracle
keeps both loops running through all their fuel. -/
theorem C3_witness :
    run_image_generation_poll (cs "u")
        (fun i => if i = 0 then ⟨false, []⟩
          else ⟨true, [(cs "9", ⟨some [⟨cs "img.png", cs "output"⟩]⟩)]⟩) 3
      = (some (Except.ok (cs "u" ++ cs "/view?filename=" ++ cs "img.png")),
          List.replicate 1 2) ∧
    generate_image_poll
        (fun i => if i = 0 then ⟨false, []⟩
          else ⟨true, [(cs "9", ⟨some [⟨cs "img.png", cs "output"⟩]⟩)]⟩) 3
      = (some (cs "img.png"), List.replicate 1 1) ∧
    (run_image_generation_poll (cs "u") (fun _ => ⟨false, []⟩) 7).1 = none ∧
    (generate_image_poll (fun _ => ⟨false, []⟩) 7).1 = none := by
  have h := C3_poll_first_image (cs "u")
    (fun i => if i = 0 then ⟨false, []⟩
      else ⟨true, [(cs "9", ⟨some [⟨cs "img.png", cs "output"⟩]⟩)]⟩)
    (fun i => if i = 0 then ⟨false, []⟩
      else ⟨true, [(cs "9", ⟨some [⟨cs "img.png", cs "output"⟩]⟩)]⟩)
    (fun _ => ⟨false, []⟩) (fun _ => ⟨false, []⟩)
    1 3 ⟨cs "img.png", cs "output"⟩ [] (cs "img.png")
  refine ⟨?_, ?_, ?_, ?_⟩
  · refine h.1 ?_ rfl rfl (by omega)
    intro j hj
    rcases Nat.lt_one_iff.mp hj with rfl
    decide
  · refine h.2.1 ?_ rfl rfl (by omega)
    intro j hj
    rcases Nat.lt_one_iff.mp hj with rfl
    exact Or.inl rfl
  · have h2 := C3_poll_first_image (cs "u") (fun _ => ⟨false, []⟩) (fun _ => ⟨false, []⟩)
      (fun _ => ⟨false, []⟩) (fun _ => ⟨false, []⟩) 1 7
      ⟨cs "img.png", cs "output"⟩ [] (cs "img.png")
    exact h2.2.2.1 (fun j => Or.inl rfl)
  · have h2 := C3_poll_first_image (cs "u") (fun _ => ⟨false, []⟩) (fun _ => ⟨false, []⟩)
      (fun _ => ⟨false, []⟩) (fun _ => ⟨false, []⟩) 1 7
      ⟨cs "img.png", cs "output"⟩ [] (cs "img.png")
    exact h2.2.2.2 (fun j => Or.inl rfl)

/-- Claim C4: `execute_scheduled_task` performs the pipeline in the order
prompt generation, image generation, caption generation, posting; a caption
failure is caught and the posts proceed with `Default caption.`; for a
`generate_and_post` task both posts are attempted, so an Instagram failure
does not prevent the Twitter attempt; and an unknown task id or character
id makes the function return with no pipeline step performed.  (An
image-generation failure aborts the run via the outer `try`, shown by the
error-shape clause.) -/
theorem C4_pipeline_order_and_recovery (tasks : List TaskRec) (characters : List CharRec)
    (taskId : Str) (imageRes captionRes instaRes twitterRes : Except Str Str) :
    (tasks.find? (fun t => t.id == taskId) = none →
      execute_scheduled_task tasks characters taskId imageRes captionRes instaRes twitterRes
        = []) ∧
    (∀ task, tasks.find? (fun t => t.id == taskId) = some task →
      characters.find? (fun c => c.id == task.characterId) = none →
      execute_scheduled_task tasks characters taskId imageRes captionRes instaRes twitterRes
        = []) ∧
    (∀ task character e, tasks.find? (fun t => t.id == taskId) = some task →
      characters.find? (fun c => c.id == task.characterId) = some character →
      imageRes = Except.error e →
      execute_scheduled_task tasks characters taskId imageRes captionRes instaRes twitterRes
        = [PipeEv.prompt (cs "A dramatic portrait of " ++ character.name ++ cs ", "
              ++ character.personality),
            PipeEv.image (Except.error e)]) ∧
    (∀ task character url, tasks.find? (fun t => t.id == taskId) = some task →
      characters.find? (fun c => c.id == task.characterId) = some character →
      imageRes = Except.ok url →
      execute_scheduled_task tasks characters taskId imageRes captionRes instaRes twitterRes
        = PipeEv.prompt (cs "A dramatic portrait of " ++ character.name ++ cs ", "
              ++ character.personality)
          :: PipeEv.image (Except.ok url)
          :: PipeEv.caption (match captionRes with
              | Except.ok c => c
              | Except.error _ => cs "Default caption.")
          :: (if task.ttype == some (cs "generate_and_post") then
              [PipeEv.insta (match captionRes with
                  | Except.ok c => c
                  | Except.error _ => cs "Default caption.") instaRes,
                PipeEv.twitter (match captionRes with
                  | Except.ok c => c
                  | Except.error _ => cs "Default caption.") twitterRes]
            else [])) := by
  refine ⟨?_, ?_, ?_, ?_⟩
  · intro h
    simp only [execute_scheduled_task, h]
  · intro task h1 h2
    simp only [execute_scheduled_task, h1, h2]
  · intro task character e h1 h2 h3
    simp only [execute_scheduled_task, h1, h2, h3]
  · intro task character url h1 h2 h3
    simp only [execute_scheduled_task, h1, h2, h3]

/-- Witness for C4: a concrete `generate_and_post` task whose caption
generation fails and whose Instagram post fails still attempts the Twitter
post with the fallback caption. -/
theorem C4_witness :
    execute_scheduled_task
        [⟨cs "t1", cs "c1", some (cs "generate_and_post"), cs "0 12 * * *", some true,
          cs "2024-01-01"⟩]
        [⟨cs "c1", cs "Ann", cs "bold", cs "", cs "", true, cs "2024-01-01", cs "2024-01-01",
          cs "", cs "", Json.obj [], Json.arr []⟩]
        (cs "t1") (Except.ok (cs "http://x/view?filename=a.png"))
        (Except.error (cs "no key")) (Except.error (cs "no insta keys"))
        (Except.ok (cs "tweet_1"))
      = [PipeEv.prompt (cs "A dramatic portrait of " ++ cs "Ann" ++ cs ", " ++ cs "bold"),
          PipeEv.image (Except.ok (cs "http://x/view?filename=a.png")),
          PipeEv.caption (cs "Default caption."),
          PipeEv.insta (cs "Default caption.") (Except.error (cs "no insta keys")),
          PipeEv.twitter (cs "Default caption.") (Except.ok (cs "tweet_1"))] := by
  have h := (C4_pipeline_order_and_recovery
    [⟨cs "t1", cs "c1", some (cs "generate_and_post"), cs "0 12 * * *", some true,
      cs "2024-01-01"⟩]
    [⟨cs "c1", cs "Ann", cs "bold", cs "", cs "", true, cs "2024-01-01", cs "2024-01-01",
      cs "", cs "", Json.obj [], Json.arr []⟩]
    (cs "t1") (Except.ok (cs "http://x/view?filename=a.png"))
    (Except.error (cs "no key")) (Except.error (cs "no insta keys"))
    (Except.ok (cs "tweet_1"))).2.2.2
    ⟨cs "t1", cs "c1", some (cs "generate_and_post"), cs "0 12 * * *", some true,
      cs "2024-01-01"⟩
    ⟨cs "c1", cs "Ann", cs "bold", cs "", cs "", true, cs "2024-01-01", cs "2024-01-01",
      cs "", cs "", Json.obj [], Json.arr []⟩
    (cs "http://x/view?filename=a.png") rfl rfl rfl
  exact h.trans rfl

/-- Claim C5: scheduling is pure delegation to the cron library: the
`add_job` calls issued by `initialize_scheduler` are exactly one job per
task whose `active` field is true or absent, keyed by the task's id and
carrying the task's cron `schedule` string, and the multi-module
`scheduler_service.start` issues exactly one registration per task with
`active` set; neither function produces anything beyond this registration
list. -/
theorem C5_scheduler_pure_delegation (tasks : List TaskRec) (tasksM : List ScheduledTaskM) :
    init_scheduler tasks
        = (tasks.filter (fun t => t.active.getD true)).map (fun t => (t.id, t.schedule)) ∧
    scheduler_service_start tasksM
        = (tasksM.filter (fun t => t.active)).map (fun t => (t.id, t.schedule)) := by
  constructor
  · have h := foldl_if_append (fun t : TaskRec => t.active.getD true)
      (fun t : TaskRec => (t.id, t.schedule)) tasks []
    rw [List.nil_append] at h
    exact h
  · have h : ∀ (l : List ScheduledTaskM) (acc : List (Str × Str)),
        l.foldl (fun jobs task => jobs ++ add_task_to_scheduler task) acc
          = acc ++ (l.filter (fun t => t.active)).map (fun t => (t.id, t.schedule)) := by
      intro l
      induction l with
      | nil => intro acc; simp
      | cons x rest ih =>
        intro acc
        by_cases hx : x.active = true
        · rw [List.foldl_cons, ih, List.filter_cons_of_pos hx, List.map_cons]
          unfold add_task_to_scheduler
          rw [if_pos hx]
          simp
        · rw [List.foldl_cons, ih, List.filter_cons_of_neg (by simp [hx])]
          unfold add_task_to_scheduler
          rw [if_neg hx]
          simp
    have h2 := h tasksM []
    rw [List.nil_append] at h2
    exact h2

theorem filter_ne_length_iff {α : Type} (f : α → Str) (A : List α) (x : Str) :
    ((A.filter (fun c => ¬(f c = x))).length = A.length) ↔ x ∉ A.map f := by
  rw [filter_length_eq_iff]
  constructor
  · intro h hmem
    rcases List.mem_map.mp hmem with ⟨c, hc, hid⟩
    have h2 := h c hc
    rw [decide_eq_true_eq] at h2
    exact h2 hid
  · intro h c hc
    rw [decide_eq_true_eq]
    intro hid
    exact h (List.mem_map.mpr ⟨c, hc, hid⟩)

/-- Claim C6: for every stored character list and character id, the
single-file server's `delete_character` and the multi-module server's
`delete_character` compute the same result.  Over any pair of lists
carrying the same id sequence: both report the not-found error exactly when
no character matches, both leave the file unwritten in that case, both
persist exactly the records whose id differs from the given id otherwise,
and the two persisted lists carry the same id sequence. -/
theorem C6_delete_character_equiv (A : List CharRec) (M : List CharacterM) (cid : Str)
    (hids : A.map CharRec.id = M.map CharacterM.id) :
    ((delete_character_app A cid).1 = Except.error (cs "Character not found")
        ↔ (delete_character_impl M cid).1 = Except.error (cs "Character not found")) ∧
    ((delete_character_app A cid).2 = none ↔ (delete_character_impl M cid).2 = none) ∧
    ((delete_character_app A cid).2
        = if cid ∈ A.map CharRec.id then some (A.filter (fun c => ¬(c.id = cid))) else none) ∧
    ((delete_character_impl M cid).2
        = if cid ∈ M.map CharacterM.id then some (M.filter (fun c => ¬(c.id = cid))) else none) ∧
    ((delete_character_app A cid).2.map (fun l => l.map CharRec.id)
        = (delete_character_impl M cid).2.map (fun l => l.map CharacterM.id)) := by
  have hA := filter_ne_length_iff CharRec.id A cid
  have hM := filter_ne_length_iff CharacterM.id M cid
  by_cases hmem : cid ∈ A.map CharRec.id
  · have hmem2 : cid ∈ M.map CharacterM.id := hids ▸ hmem
    have hneA : ¬((A.filter (fun c => ¬(c.id = cid))).length = A.length) :=
      fun h => (hA.mp h) hmem
    have hneM : ¬((M.filter (fun c => ¬(c.id = cid))).length = M.length) :=
      fun h => (hM.mp h) hmem2
    simp only [delete_character_app, delete_character_impl, if_neg hneA, if_neg hneM]
    refine ⟨by simp, by simp, by rw [if_pos hmem], by rw [if_pos hmem2], ?_⟩
    refine congrArg some ?_
    show (A.filter (fun c => ¬(c.id = cid))).map CharRec.id
        = (M.filter (fun c => ¬(c.id = cid))).map CharacterM.id
    rw [map_filter_comp CharRec.id (fun y => decide ¬(y = cid)) A,
      map_filter_comp CharacterM.id (fun y => decide ¬(y = cid)) M, hids]
  · have hmem2 : cid ∉ M.map CharacterM.id := hids ▸ hmem
    have heqA : (A.filter (fun c => ¬(c.id = cid))).length = A.length := hA.mpr hmem
    have heqM : (M.filter (fun c => ¬(c.id = cid))).length = M.length := hM.mpr hmem2
    simp only [delete_character_app, delete_character_impl, if_pos heqA, if_pos heqM]
    exact ⟨by simp, by simp, by rw [if_neg hmem], by rw [if_neg hmem2], by simp⟩

/-- Witness for C6: the two delete handlers agree on the empty store. -/
theorem C6_witness :
    ((delete_character_app ([] : List CharRec) (cs "char_1")).1
        = Except.error (cs "Character not found")
      ↔ (delete_character_impl ([] : List CharacterM) (cs "char_1")).1
        = Except.error (cs "Character not found")) :=
  (C6_delete_character_equiv [] [] (cs "char_1") rfl).1

/-- Claim C7: a load following a save observes exactly the saved list.
The single-file server's helpers replace the whole file on every save, so
whatever the file held before, `load_characters` after `save_characters`
returns precisely the saved array with no partial update, indexing, or
merge of prior contents; and in the multi-module server the pydantic
serialize/validate round trip reproduces every saved `Character` record
exactly. -/
theorem C7_save_load_roundtrip (chars : List Json) (charsM : List CharacterM)
    (prevA prevM : Option Json) :
    load_characters_app (save_characters_app chars prevA) = Json.arr chars ∧
    load_characters_impl (save_characters_impl charsM prevM) = some charsM := by
  constructor
  · rfl
  · show decodeList charFromJson (charsM.map charToJson) = some charsM
    exact decodeList_char_round charsM

/-- Claim C8: on every not-found path of the single-file server's delete
and update handlers, the 404 response is produced with no save call, so the
stored JSON file is left exactly as it was: `delete_character`,
`delete_task`, `update_task`, and the `delete_prompt` and
`delete_template` actions. -/
theorem C8_not_found_leaves_file_unchanged (characters : List CharRec)
    (tasks : List TaskRec) (prompts : List PromptRec) (templates : List TemplateRec)
    (cid tid pid teid : Str) (data : Option (TaskRec → TaskRec))
    (hc : ∀ c ∈ characters, ¬(c.id = cid))
    (ht : ∀ t ∈ tasks, ¬(t.id = tid))
    (hp : ∀ p ∈ prompts, ¬(p.id = pid))
    (hte : ∀ t ∈ templates, ¬(t.id = teid)) :
    delete_character_app characters cid = (Except.error (cs "Character not found"), none) ∧
    delete_task tasks tid = (Except.error (cs "Task not found"), none) ∧
    (update_task tasks tid data).2 = none ∧
    (∀ upd, data = some upd →
      update_task tasks tid data = (Except.error (cs "Task not found"), none)) ∧
    delete_prompt_action prompts pid = (Except.error (cs "Prompt not found"), none) ∧
    delete_template_action templates teid = (Except.error (cs "Template not found"), none) := by
  have hanyf : ¬(tasks.any (fun t => t.id == tid) = true) := by
    intro hany
    rcases List.any_eq_true.mp hany with ⟨t, htl, hbeq⟩
    exact ht t htl (by rwa [beq_iff_eq] at hbeq)
  refine ⟨?_, ?_, ?_, ?_, ?_, ?_⟩
  · have hlen : (characters.filter (fun c => ¬(c.id = cid))).length = characters.length :=
      filter_length_eq_iff.mpr (fun c hcl => decide_eq_true (hc c hcl))
    simp only [delete_character_app, if_pos hlen]
  · have hlen : (tasks.filter (fun t => ¬(t.id = tid))).length = tasks.length :=
      filter_length_eq_iff.mpr (fun t htl => decide_eq_true (ht t htl))
    simp only [delete_task, if_pos hlen]
  · cases data with
    | none => rfl
    | some upd => simp only [update_task, if_neg hanyf]
  · intro upd hdata
    subst hdata
    simp only [update_task, if_neg hanyf]
  · have hlen : (prompts.filter (fun p => ¬(p.id = pid))).length = prompts.length :=
      filter_length_eq_iff.mpr (fun p hpl => decide_eq_true (hp p hpl))
    simp only [delete_prompt_action, if_pos hlen]
  · have hlen : (templates.filter (fun t => ¬(t.id = teid))).length = templates.length :=
      filter_length_eq_iff.mpr (fun t htl => decide_eq_true (hte t htl))
    simp only [delete_template_action, if_pos hlen]

/-- Witness for C8: every handler on the empty store reports not-found with
no save call. -/
theorem C8_witness :
    delete_character_app ([] : List CharRec) (cs "x")
        = (Except.error (cs "Character not found"), none) ∧
    delete_task ([] : List TaskRec) (cs "x") = (Except.error (cs "Task not found"), none) ∧
    update_task ([] : List TaskRec) (cs "x") (some (fun t => t))
        = (Except.error (cs "Task not found"), none) := by
  have h := C8_not_found_leaves_file_unchanged [] [] [] [] (cs "x") (cs "x") (cs "x") (cs "x")
    (some (fun t => t)) (by simp) (by simp) (by simp) (by simp)
  exact ⟨h.1, h.2.1, h.2.2.2.1 (fun t => t) rfl⟩

/-- Claim C9: every record created through the single-file server's public
interface starts in a fixed initial state regardless of the request
payload: a prompt produced by `_generate_single_prompt` (on either its
template or its AI branch) has `used = false`, `imageGenerated = false` and
`posted = false`, and a character produced by `create_character` has
`isActive = true`. -/
theorem C9_initial_record_state (characters : List CharRec) (templates : List TemplateRec)
    (prompts : List PromptRec) (payload : PromptPayload) (newId nowIso : Str)
    (pick : List Str → Str) (characters2 : List CharRec) (data : Option CharPayload)
    (newId2 nowIso2 : Str) :
    (∀ p rest, generate_single_prompt characters templates prompts payload newId nowIso pick
        = Except.ok (p, rest) →
      p.used = false ∧ p.imageGenerated = false ∧ p.posted = false) ∧
    (∀ c rest, create_character characters2 data newId2 nowIso2 = Except.ok (c, rest) →
      c.isActive = true) := by
  constructor
  · intro p rest h
    simp only [generate_single_prompt] at h
    split at h
    · exact Except.noConfusion h
    · split at h
      · exact Except.noConfusion h
      · split at h
        · rw [Except.ok.injEq, Prod.mk.injEq] at h
          obtain ⟨h1, -⟩ := h
          subst h1
          exact ⟨rfl, rfl, rfl⟩
        · split at h
          · exact Except.noConfusion h
          · rw [Except.ok.injEq, Prod.mk.injEq] at h
            obtain ⟨h1, -⟩ := h
            subst h1
            exact ⟨rfl, rfl, rfl⟩
  · intro c rest h
    simp only [create_character] at h
    split at h
    · exact Except.noConfusion h
    · split at h
      · rw [Except.ok.injEq, Prod.mk.injEq] at h
        obtain ⟨h1, -⟩ := h
        subst h1
        rfl
      · exact Except.noConfusion h

/-- Witness for C9: a prompt generated for a payload whose status flags are
all set true is still created unused/unposted, and a character created from
a payload carrying `isActive = false` is still created active. -/
theorem C9_witness :
    (⟨cs "p1", cs "c1", cs "Ann",
        cs "A dramatic, cinematic portrait of Ann, who is known for being bold.",
        cs "This is a simulated AI-generated caption for Ann. #ai #placeholder",
        none, cs "2024", false, false, false⟩ : PromptRec).used = false ∧
    (⟨cs "ch1", cs "Zed", cs "calm", [], [], true, cs "2024", cs "2024", [], [],
        Json.obj [], Json.arr []⟩ : CharRec).isActive = true := by
  have h := C9_initial_record_state
    [⟨cs "c1", cs "Ann", cs "bold", cs "", cs "", true, cs "", cs "", cs "", cs "",
      Json.obj [], Json.arr []⟩]
    [] [] ⟨some (cs "c1"), none, [], some true, some true, some true⟩
    (cs "p1") (cs "2024") (fun _ => cs "x")
    [] (some ⟨some (cs "Zed"), some (cs "calm"), none, none, none, none, none, none,
      some false⟩)
    (cs "ch1") (cs "2024")
  refine ⟨?_, ?_⟩
  · exact (h.1
      ⟨cs "p1", cs "c1", cs "Ann",
        cs "A dramatic, cinematic portrait of Ann, who is known for being bold.",
        cs "This is a simulated AI-generated caption for Ann. #ai #placeholder",
        none, cs "2024", false, false, false⟩
      [⟨cs "p1", cs "c1", cs "Ann",
        cs "A dramatic, cinematic portrait of Ann, who is known for being bold.",
        cs "This is a simulated AI-generated caption for Ann. #ai #placeholder",
        none, cs "2024", false, false, false⟩] rfl).1
  · exact h.2
      ⟨cs "ch1", cs "Zed", cs "calm", [], [], true, cs "2024", cs "2024", [], [],
        Json.obj [], Json.arr []⟩
      [⟨cs "ch1", cs "Zed", cs "calm", [], [], true, cs "2024", cs "2024", [], [],
        Json.obj [], Json.arr []⟩] rfl

/-- Claim C10: one pass of the python_dalla scheduler worker modifies only
jobs whose status is `scheduled` — any other job, in particular a
`completed` or `failed` one, passes through unchanged, so it can never
return to `scheduled` — and every `scheduled` job that is due or carries
invalid scheduling data leaves the pass with status `completed` or
`failed`; the pass is the per-job step mapped over the loaded job list. -/
theorem C10_scheduler_worker_pass (characters : List CharW) (now : Int)
    (parseIso : Str → Option Int) (postFn : CharW → Str → Str → PostRes) :
    (∀ job : JobW, ¬(job.status = cs "scheduled") →
      stepJob characters now parseIso postFn job = job) ∧
    (∀ job : JobW, job.status = cs "scheduled" → dueOrInvalid now parseIso job = true →
      ((stepJob characters now parseIso postFn job).status = cs "completed" ∨
        (stepJob characters now parseIso postFn job).status = cs "failed")) ∧
    (∀ jobs : List JobW, run_scheduler_pass characters now parseIso postFn jobs
      = jobs.map (stepJob characters now parseIso postFn)) := by
  refine ⟨?_, ?_, fun jobs => rfl⟩
  · intro job h
    unfold stepJob
    rw [if_neg h]
  · intro job h hdue
    unfold stepJob
    rw [if_pos h]
    split
    · exact Or.inr rfl
    · split
      · exact Or.inr rfl
      · split
        · split
          · exact Or.inr rfl
          · dsimp only
            split
            · exact Or.inl rfl
            · exact Or.inr rfl
        · rename_i x1 ts hpa x2 t hparse hnotle
          unfold dueOrInvalid at hdue
          simp only [hpa, hparse] at hdue
          rw [decide_eq_true_eq] at hdue
          exact absurd hdue hnotle

/-- Witness for C10: a completed job is untouched by a pass, and a
scheduled job without a `post_at` value ends the pass failed. -/
theorem C10_witness :
    stepJob [] 0 (fun _ => none) (fun _ _ _ => ⟨true, none, none⟩)
        ⟨cs "j1", cs "completed", some (cs "2024-01-01T00:00:00"), cs "c1", cs "a.png",
          cs "cap", some (cs "post_9"), none⟩
      = ⟨cs "j1", cs "completed", some (cs "2024-01-01T00:00:00"), cs "c1", cs "a.png",
          cs "cap", some (cs "post_9"), none⟩ ∧
    ((stepJob [] 0 (fun _ => none) (fun _ _ _ => ⟨true, none, none⟩)
        ⟨cs "j2", cs "scheduled", none, cs "c1", cs "a.png", cs "cap", none, none⟩).status
          = cs "completed" ∨
      (stepJob [] 0 (fun _ => none) (fun _ _ _ => ⟨true, none, none⟩)
        ⟨cs "j2", cs "scheduled", none, cs "c1", cs "a.png", cs "cap", none, none⟩).status
          = cs "failed") := by
  have h := C10_scheduler_worker_pass [] 0 (fun _ => none) (fun _ _ _ => ⟨true, none, none⟩)
  refine ⟨?_, ?_⟩
  · exact h.1
      ⟨cs "j1", cs "completed", some (cs "2024-01-01T00:00:00"), cs "c1", cs "a.png",
        cs "cap", some (cs "post_9"), none⟩ (by decide)
  · exact h.2.1
      ⟨cs "j2", cs "scheduled", none, cs "c1", cs "a.png", cs "cap", none, none⟩ rfl rfl
